import Mathlib

/-
Verification of the WCOW v2 layer mount/unmount orchestration
(vendor/github.com/Microsoft/hcsshim/containerex_wcow.go).

The embedding models:
  * the VSMB share registry of a utility VM (Go: container.vsmbShares.guids,
    a map[string]int of ref-counts) as an association list String -> Int;
  * the SCSI attachment table (Go: container.scsiLocations.hostPath, a
    fixed [controller][lun]string array) as a list of rows of host paths,
    where the empty string marks a free slot;
  * remote control-plane calls (container.Modify with a
    ModifySettingsRequestV2) as values of an inductive ModifyReq, with an
    oracle (ModifyReq -> Bool) deciding success of each issued call, and
    every operation returning the list of calls it issued;
  * the layer-driver primitives (ActivateLayer etc.) used by the direct
    (v1 / argon) paths as an oracle over an inductive LayerOp;
  * NameToGuid as a function parameter String -> Option String (none
    models the error return the Go code handles at each call site).

Operations are translated from the Go source; functions the repository
only calls but does not define under src (allocateSCSI,
findSCSIAttachment, path splitting) are modelled from the specification
and marked as such in their doc comments.
-/

namespace Hcs

/-- A remote control-plane modify request, one constructor per distinct
ModifySettingsRequestV2 shape constructed in containerex_wcow.go. -/
inductive ModifyReq
  | vsmbAdd (name path : String)
  | vsmbRemove (name : String)
  | scsiAdd (controller lun : Nat) (hostPath containerPath : String)
  | scsiRemove (controller lun : Nat) (containerPath : Option String)
  | combinedAdd (rootPath : String) (layers : List (String × String))
  | combinedRemove (rootPath : String)
  deriving DecidableEq, Repr

/-- A host-side layer-driver primitive invoked by the direct (non-hosted)
mount and unmount paths. -/
inductive LayerOp
  | activate (home id : String)
  | prepare (home id : String) (parents : List String)
  | getMountPath (home id : String)
  | unprepare (home id : String)
  | deactivate (home id : String)
  deriving DecidableEq, Repr

/-! ### The VSMB share registry: an association list modelling map[string]int -/

/-- The ref-count table of VSMB shares of one utility VM
(Go: vsmbShares.guids, a map from GUID string to reference count). -/
abbrev VsmbMap := List (String × Int)

/-- Map lookup: the value of the first entry with the given key. -/
def vfind : VsmbMap → String → Option Int
  | [], _ => none
  | (k', v) :: rest, k => if k' = k then some v else vfind rest k

/-- Map update: replace the value of the first entry with the given key,
or append a new entry when the key is absent. -/
def vset : VsmbMap → String → Int → VsmbMap
  | [], k, v => [(k, v)]
  | (k', v') :: rest, k, v =>
      if k' = k then (k, v) :: rest else (k', v') :: vset rest k v

/-- Map deletion: remove the first entry with the given key. -/
def verase : VsmbMap → String → VsmbMap
  | [], _ => []
  | (k', v') :: rest, k =>
      if k' = k then rest else (k', v') :: verase rest k

/-- Representation invariant of a Go map: keys occur at most once. -/
def UniqueKeys (s : VsmbMap) : Prop := (s.map Prod.fst).Nodup

/-- Documented invariant of the registry: every identifier present in the
table has reference count at least 1. -/
def VsmbInv (s : VsmbMap) : Prop := ∀ p ∈ s, 1 ≤ p.2

/-! ### The SCSI attachment table -/

/-- Element access with a default, used for the fixed-size slot table. -/
def lgetD {α : Type} : List α → Nat → α → α
  | [], _, d => d
  | a :: _, 0, _ => a
  | _ :: rest, n + 1, d => lgetD rest n d

/-- In-place element update; out-of-range indices leave the list unchanged
(the Go array is fixed-size, so indices are always in range there). -/
def lsetL {α : Type} : List α → Nat → α → List α
  | [], _, _ => []
  | _ :: rest, 0, v => v :: rest
  | a :: rest, n + 1, v => a :: lsetL rest n v

/-- First index whose element satisfies the predicate. -/
def findIdxAux {α : Type} (p : α → Bool) : List α → Option Nat
  | [] => none
  | a :: rest => if p a then some 0 else (findIdxAux p rest).map (· + 1)

/-- The SCSI slot table of one utility VM
(Go: scsiLocations.hostPath, a [4][64]string array; "" means free). -/
abbrev ScsiTable := List (List String)

def getSlot (t : ScsiTable) (c l : Nat) : String := lgetD (lgetD t c []) l ""

def setSlot (t : ScsiTable) (c l : Nat) (v : String) : ScsiTable :=
  lsetL t c (lsetL (lgetD t c []) l v)

/-- Scan the rows of the slot table, in ascending controller order, for
the first row holding a free slot. -/
def scanFree : List (List String) → Nat → Option (Nat × Nat)
  | [], _ => none
  | row :: rest, c =>
      match findIdxAux (fun h => h == "") row with
      | some l => some (c, l)
      | none => scanFree rest (c + 1)

/-- Modelled from the spec: the Attachment Allocator operation `allocate`
of allocateSCSI, which is called by Mount but not defined under src.
It scans the slot table for the first free slot in ascending
(controller, slot) order and reserves it with the given hostPath,
failing when no free slot exists. (The Add modify request for the
reserved slot is issued by the Mount code itself, which is in src.) -/
def allocateSCSI (t : ScsiTable) (hostPath : String) : Option (Nat × Nat × ScsiTable) :=
  match scanFree t 0 with
  | none => none
  | some (c, l) => some (c, l, setSlot t c l hostPath)

/-- Scan the rows of the slot table for the first slot holding the path. -/
def scanPath (p : String) : List (List String) → Nat → Option (Nat × Nat)
  | [], _ => none
  | row :: rest, c =>
      match findIdxAux (fun h => h == p) row with
      | some l => some (c, l)
      | none => scanPath p rest (c + 1)

/-- Modelled from the spec: the Attachment Allocator operation `findByPath`
of findSCSIAttachment, which is called by Unmount but not defined under
src. Linear reverse lookup of an attached host path; none when the path
is not currently attached. -/
def findSCSIAttachment (t : ScsiTable) (p : String) : Option (Nat × Nat) :=
  scanPath p t 0

/-! ### Path helpers (Go standard library, modelled) -/

/-- Split a character list at every occurrence of the separator. -/
def splitChar (sep : Char) : List Char → List (List Char)
  | [] => [[]]
  | c :: rest =>
      let r := splitChar sep rest
      if c = sep then [] :: r
      else (c :: r.headD []) :: r.tail

/-- Modelled from the spec: the layer-stack convention says the folder
leaf-name is the sole input to identifier derivation. This is the file
component of filepath.Split, the part after the final path separator. -/
def fileName (p : String) : String :=
  String.mk ((splitChar (Char.ofNat 92) p.data).getLastD [])

/-- Modelled from the spec: the directory component of a layer path
(filepath.Dir), everything before the final path separator. -/
def fileDir (p : String) : String :=
  String.intercalate "\\"
    (((splitChar (Char.ofNat 92) p.data).dropLast).map String.mk)

/-- Modelled from the spec: filepath.Join of a folder and a file name. -/
def joinPath (a b : String) : String := a ++ "\\" ++ b

/-- The string form of the zero value of a GUID, which the Go Unmount code
uses when NameToGuid failed for the sandbox folder. -/
def zeroGuid : String := "00000000-0000-0000-0000-000000000000"

/-- The fixed VSMB mapped-path root used for read-only layer references in
the combined-layers request. -/
def vsmbShareRoot : String :=
  "\\\\?\\VMSMB\\VSMB-\x7bdcc079ae-60ba-4d07-847c-3493609c0870\x7d\\"

/-! ### Schema versions -/

inductive SchemaVersion
  | v10
  | v20
  deriving DecidableEq, Repr

def SchemaVersion.IsV10 : SchemaVersion → Bool
  | .v10 => true
  | .v20 => false

def SchemaVersion.IsV20 : SchemaVersion → Bool
  | .v10 => false
  | .v20 => true

/-! ### Share registry operations (from containerex_wcow.go) -/

/-- removeVSMB (containerex_wcow.go:144). Looks the id up; when absent,
fails without changes. Otherwise decrements the ref-count; when the
decremented count is 0 the entry is deleted and one Remove modify request
is issued (whose failure is returned after the deletion already
happened). Returns the result, the new table and the issued calls. -/
def removeVSMB (oracle : ModifyReq → Bool) (s : VsmbMap) (id : String) :
    Except String Unit × VsmbMap × List ModifyReq :=
  match vfind s id with
  | none =>
      (Except.error ("failed to remove vsmbShare " ++ id ++ " as it is not in utility VM"),
        s, [])
  | some n =>
      let s1 := vset s id (n - 1)
      if n - 1 = 0 then
        let s2 := verase s1 id
        let req := ModifyReq.vsmbRemove id
        if oracle req then (Except.ok (), s2, [req])
        else
          (Except.error ("failed to remove vsmbShare " ++ id ++
            " from utility VM after refcount dropped to zero"), s2, [req])
      else (Except.ok (), s1, [])

/-- removeVSMBOnFailure (containerex_wcow.go:169). Rolls back a list of
acquired shares, releasing each one once and only logging individual
errors. (The Go function returns early on an empty list, before taking
the lock; on a non-empty list it takes the vsmbShares lock itself.) -/
def removeVSMBOnFailure (oracle : ModifyReq → Bool) (s : VsmbMap)
    (toRemove : List String) : VsmbMap × List ModifyReq :=
  toRemove.foldl
    (fun acc id =>
      let r := removeVSMB oracle acc.1 id
      (r.2.1, acc.2 ++ r.2.2))
    (s, [])

/-! ### SCSI operations (from containerex_wcow.go) -/

/-- removeSCSI (containerex_wcow.go:184). Issues a Remove modify request
for the slot (including the guest path when non-empty); when the request
fails the error is returned and the slot entry is left as it was, and
only on success is the slot cleared. -/
def removeSCSI (oracle : ModifyReq → Bool) (t : ScsiTable) (controller lun : Nat)
    (containerPath : String) : Except String Unit × ScsiTable × List ModifyReq :=
  let req := ModifyReq.scsiRemove controller lun
    (if containerPath = "" then none else some containerPath)
  if oracle req then (Except.ok (), setSlot t controller lun "", [req])
  else (Except.error "failed SCSI modify", t, [req])

/-- removeSCSIOnFailure (containerex_wcow.go:205). Rollback of a SCSI
attachment with the error only logged. -/
def removeSCSIOnFailure (oracle : ModifyReq → Bool) (t : ScsiTable)
    (controller lun : Nat) : ScsiTable × List ModifyReq :=
  let r := removeSCSI oracle t controller lun ""
  (r.2.1, r.2.2)

/-! ### Mount (containerex_wcow.go:471) -/

/-- The value Mount returns on success: a host mount path for the direct
paths, a CombinedLayersV2 structure (container root path plus layer
references) for the v2 hosted path. -/
inductive MountRetVal
  | hostPath (p : String)
  | combined (containerRootPath : String) (layers : List (String × String))
  deriving DecidableEq, Repr

/-- The observable outcome of a Mount call: the returned value or error,
the final share registry and SCSI table of the hosting VM, the modify
requests issued, the layer-driver primitives invoked, and - for the lock
discipline claim - one entry per invocation of removeVSMBOnFailure with a
non-empty list (i.e. per invocation that itself takes the vsmbShares
lock), recording whether the caller was still holding that lock. -/
structure MountOut where
  result : Except String MountRetVal
  vsmb : VsmbMap
  scsi : ScsiTable
  calls : List ModifyReq
  layerOps : List LayerOp
  rollbackLocked : List Bool
  deriving Repr

/-- Record of an invocation of the share rollback helper: an entry is
produced only when the helper receives a non-empty list (the Go helper
returns before locking otherwise), and the flag records whether the
vsmbShares lock was already held at the call site. -/
def rollbackEvent (added : List String) (lockHeld : Bool) : List Bool :=
  if added = [] then [] else [lockHeld]

/-- Outcome of the VSMB acquisition loop of the v2 hosted Mount path. -/
structure LoopOut where
  res : Except String Unit
  vsmb : VsmbMap
  added : List String
  calls : List ModifyReq
  rollbackLocked : List Bool
  deriving Repr

/-- The body of the acquisition loop of Mount (containerex_wcow.go
lines 528-547) for one derived identifier: when the identifier is absent
one Add modify request is issued and, on its success, the identifier is
inserted with count 1; when present the count is incremented with no
remote call. -/
def acquireVSMB (oracle : ModifyReq → Bool) (s : VsmbMap) (guid layerPath : String) :
    Except String VsmbMap × List ModifyReq :=
  match vfind s guid with
  | none =>
      let req := ModifyReq.vsmbAdd guid layerPath
      if oracle req then (Except.ok (vset s guid 1), [req])
      else (Except.error ("failed to modify utility VM configuration for " ++ layerPath), [req])
  | some n => (Except.ok (vset s guid (n + 1)), [])

/-- The VSMB acquisition loop of the v2 hosted Mount path
(containerex_wcow.go lines 519-550), threading the registry, the list of
identifiers touched by this call and the issued requests. On a
NameToGuid failure the rollback helper is invoked before the vsmbShares
lock is released (hence lock-held flag true); on a Modify failure the
lock is released first (flag false). -/
def mountVsmbLoop (ntg : String → Option String) (oracle : ModifyReq → Bool) :
    List String → VsmbMap → List String → List ModifyReq → List Bool → LoopOut
  | [], s, added, calls, rb => ⟨Except.ok (), s, added, calls, rb⟩
  | layerPath :: rest, s, added, calls, rb =>
      match ntg (fileName layerPath) with
      | none =>
          let r := removeVSMBOnFailure oracle s added
          ⟨Except.error ("NameToGuid failed on " ++ fileName layerPath), r.1, added,
            calls ++ r.2, rb ++ rollbackEvent added true⟩
      | some guid =>
          let a := acquireVSMB oracle s guid layerPath
          match a.1 with
          | Except.error e =>
              let r := removeVSMBOnFailure oracle s added
              ⟨Except.error e, r.1, added, calls ++ a.2 ++ r.2,
                rb ++ rollbackEvent added false⟩
          | Except.ok s1 =>
              mountVsmbLoop ntg oracle rest s1 (added ++ [guid]) (calls ++ a.2) rb

/-- Mount (containerex_wcow.go:471). The direct path (v1 schema, or v2
schema without a hosting system) validates the stack length and drives
activate / prepare / mount-path resolution with the documented
compensation on failure. The v2 hosted path acquires each read-only
layer in the share registry, allocates a SCSI slot for the scratch disk,
issues the scratch Add and the combined-layers request, rolling back on
the failure paths exactly as the Go code does. -/
def Mount (ntg : String → Option String) (oracle : ModifyReq → Bool)
    (lop : LayerOp → Option String) (layerFolders : List String)
    (sv : SchemaVersion) (hosted : Bool) (vsmb0 : VsmbMap) (scsi0 : ScsiTable) :
    MountOut :=
  if sv.IsV10 || (sv.IsV20 && !hosted) then
    if layerFolders.length < 2 then
      ⟨Except.error "need at least two layers - base and sandbox", vsmb0, scsi0, [], [], []⟩
    else
      let last := layerFolders.getLastD ""
      let id := fileName last
      let homeDir := fileDir last
      let aOp := LayerOp.activate homeDir id
      match lop aOp with
      | none => ⟨Except.error "ActivateLayer failed", vsmb0, scsi0, [], [aOp], []⟩
      | some _ =>
        let pOp := LayerOp.prepare homeDir id layerFolders.dropLast
        match lop pOp with
        | none =>
            let dOp := LayerOp.deactivate homeDir id
            ⟨Except.error "PrepareLayer failed", vsmb0, scsi0, [], [aOp, pOp, dOp], []⟩
        | some _ =>
          let gOp := LayerOp.getMountPath homeDir id
          match lop gOp with
          | none =>
              let uOp := LayerOp.unprepare homeDir id
              let dOp := LayerOp.deactivate homeDir id
              ⟨Except.error "GetLayerMountPath failed", vsmb0, scsi0, [],
                [aOp, pOp, gOp, uOp, dOp], []⟩
          | some mountPath =>
              ⟨Except.ok (MountRetVal.hostPath mountPath), vsmb0, scsi0, [],
                [aOp, pOp, gOp], []⟩
  else
    let lo := mountVsmbLoop ntg oracle layerFolders.dropLast vsmb0 [] [] []
    match lo.res with
    | Except.error e => ⟨Except.error e, lo.vsmb, scsi0, lo.calls, [], lo.rollbackLocked⟩
    | Except.ok _ =>
      let sandboxLeaf := fileName (layerFolders.getLastD "")
      match ntg sandboxLeaf with
      | none =>
          let r := removeVSMBOnFailure oracle lo.vsmb lo.added
          ⟨Except.error ("NameToGuid failed on " ++ sandboxLeaf), r.1, scsi0,
            lo.calls ++ r.2, [], lo.rollbackLocked ++ rollbackEvent lo.added false⟩
      | some cpGuid =>
        let hostPath := joinPath (layerFolders.getLastD "") "sandbox.vhdx"
        let containerPath := "C:\\" ++ cpGuid
        match allocateSCSI scsi0 hostPath with
        | none =>
            let r := removeVSMBOnFailure oracle lo.vsmb lo.added
            ⟨Except.error "no free SCSI locations", r.1, scsi0, lo.calls ++ r.2, [],
              lo.rollbackLocked ++ rollbackEvent lo.added false⟩
        | some (controller, lun, scsi1) =>
          if controller > 0 then
            ⟨Except.error "too many SCSI attachments for a single controller",
              lo.vsmb, scsi1, lo.calls, [], lo.rollbackLocked⟩
          else
            let sreq := ModifyReq.scsiAdd controller lun hostPath containerPath
            if oracle sreq then
              let layers := lo.added.map (fun v => (v, vsmbShareRoot ++ v))
              let root := "C:\\" ++ cpGuid
              let creq := ModifyReq.combinedAdd root layers
              if oracle creq then
                ⟨Except.ok (MountRetVal.combined root layers), lo.vsmb, scsi1,
                  lo.calls ++ [sreq, creq], [], lo.rollbackLocked⟩
              else
                let r := removeVSMBOnFailure oracle lo.vsmb lo.added
                let r2 := removeSCSIOnFailure oracle scsi1 controller lun
                ⟨Except.error "failed to modify combined layers", r.1, r2.1,
                  lo.calls ++ [sreq, creq] ++ r.2 ++ r2.2, [],
                  lo.rollbackLocked ++ rollbackEvent lo.added false⟩
            else
              let r := removeVSMBOnFailure oracle lo.vsmb lo.added
              ⟨Except.error "failed to modify sandbox attachment", r.1, scsi1,
                lo.calls ++ [sreq] ++ r.2, [],
                lo.rollbackLocked ++ rollbackEvent lo.added false⟩

/-! ### Unmount (containerex_wcow.go:639) -/

def UnmountOperationSCSI : Nat := 1

def UnmountOperationVSMB : Nat := 2

def UnmountOperationAll : Nat := UnmountOperationSCSI ||| UnmountOperationVSMB

/-- The observable outcome of an Unmount call: the accumulated error
messages (the empty list models a nil return), the final registry and
SCSI table, the issued requests and the layer-driver primitives run. -/
structure UnmountOut where
  err : List String
  vsmb : VsmbMap
  scsi : ScsiTable
  calls : List ModifyReq
  layerOps : List LayerOp
  deriving DecidableEq, Repr

/-- Accumulator of the VSMB release loop of Unmount: the registry, the
accumulated non-fatal errors and the issued requests. -/
structure VsmbUnOut where
  vsmb : VsmbMap
  errs : List String
  calls : List ModifyReq
  deriving DecidableEq, Repr

/-- One iteration of the VSMB release loop of Unmount (containerex_wcow.go
lines 716-750): a NameToGuid failure or an identifier absent from the
registry is only logged (the loop continues with nothing accumulated);
otherwise the count is decremented, and when it drops to 0 or below the
entry is deleted and one Remove modify request issued whose failure is
appended to the accumulated error. -/
def unmountVsmbStep (ntg : String → Option String) (oracle : ModifyReq → Bool)
    (acc : VsmbUnOut) (layerPath : String) : VsmbUnOut :=
  match ntg (fileName layerPath) with
  | none => acc
  | some guid =>
      match vfind acc.vsmb guid with
      | none => acc
      | some n =>
          let s1 := vset acc.vsmb guid (n - 1)
          if n - 1 > 0 then { acc with vsmb := s1 }
          else
            let s2 := verase s1 guid
            let req := ModifyReq.vsmbRemove guid
            if oracle req then
              { vsmb := s2, errs := acc.errs, calls := acc.calls ++ [req] }
            else
              { vsmb := s2,
                errs := acc.errs ++ ["failed to remove vsmb share " ++ layerPath],
                calls := acc.calls ++ [req] }

/-- The VSMB release loop of Unmount over the read-only layers. -/
def unmountVsmbSection (ntg : String → Option String) (oracle : ModifyReq → Bool)
    (acc : VsmbUnOut) (layers : List String) : VsmbUnOut :=
  layers.foldl (unmountVsmbStep ntg oracle) acc

/-- Unmount (containerex_wcow.go:639). The direct path (v1 schema, or v2
schema without a hosting system) requires op = UnmountOperationAll and at
least one layer, then unprepares and deactivates. The v2 hosted path
requires at least two layers, then runs the combined-layers teardown and
SCSI detach when the scope condition (op ||| SCSI) = SCSI holds, and the
per-layer share release when (op ||| VSMB) = VSMB holds, exactly as the
Go conditions are written. -/
def Unmount (ntg : String → Option String) (oracle : ModifyReq → Bool)
    (lop : LayerOp → Option String) (layerFolders : List String)
    (sv : SchemaVersion) (hosted : Bool) (op : Nat)
    (vsmb0 : VsmbMap) (scsi0 : ScsiTable) : UnmountOut :=
  if sv.IsV10 || (sv.IsV20 && !hosted) then
    if op ≠ UnmountOperationAll then
      ⟨["Only UnmountOperationAll is supported in the v1 schema, or for v2 schema argons"],
        vsmb0, scsi0, [], []⟩
    else if layerFolders.length < 1 then
      ⟨["need at least one layer for Unmount"], vsmb0, scsi0, [], []⟩
    else
      let last := layerFolders.getLastD ""
      let id := fileName last
      let homeDir := fileDir last
      let uOp := LayerOp.unprepare homeDir id
      match lop uOp with
      | none => ⟨["UnprepareLayer failed"], vsmb0, scsi0, [], [uOp]⟩
      | some _ =>
        let dOp := LayerOp.deactivate homeDir id
        match lop dOp with
        | none => ⟨["DeactivateLayer failed"], vsmb0, scsi0, [], [uOp, dOp]⟩
        | some _ => ⟨[], vsmb0, scsi0, [], [uOp, dOp]⟩
  else
    if layerFolders.length < 2 then
      ⟨["at least two layers are required for unmount"], vsmb0, scsi0, [], []⟩
    else
      let scsiPart :=
        if (op ||| UnmountOperationSCSI) = UnmountOperationSCSI then
          let sandboxLeaf := fileName (layerFolders.getLastD "")
          let guidStr := (ntg sandboxLeaf).getD zeroGuid
          let calls0 :=
            match ntg sandboxLeaf with
            | none => ([] : List ModifyReq)
            | some g => [ModifyReq.combinedRemove ("C:\\" ++ g)]
          let hostSandboxFile := joinPath (layerFolders.getLastD "") "sandbox.vhdx"
          match findSCSIAttachment scsi0 hostSandboxFile with
          | none => (([] : List String), scsi0, calls0)
          | some (controller, lun) =>
              let r := removeSCSI oracle scsi0 controller lun ("C:\\" ++ guidStr)
              match r.1 with
              | Except.ok _ => (([] : List String), r.2.1, calls0 ++ r.2.2)
              | Except.error _ =>
                  (["failed to remove SCSI " ++ hostSandboxFile], r.2.1, calls0 ++ r.2.2)
        else (([] : List String), scsi0, ([] : List ModifyReq))
      if layerFolders.length > 1 ∧ (op ||| UnmountOperationVSMB) = UnmountOperationVSMB then
        let r := unmountVsmbSection ntg oracle ⟨vsmb0, scsiPart.1, scsiPart.2.2⟩
          layerFolders.dropLast
        ⟨r.errs, r.vsmb, scsiPart.2.1, r.calls, []⟩
      else ⟨scsiPart.1, vsmb0, scsiPart.2.1, scsiPart.2.2, []⟩

/-! ### Trace alphabet for the per-identifier ref-count properties -/

/-- A per-identifier trace alphabet: an acquisition (the body of the
Mount loop) or a release (removeVSMB) of one fixed identifier. -/
inductive RegOp
  | acq
  | rel
  deriving DecidableEq, Repr

/-- Run a sequence of acquire / release operations for one identifier,
collecting the issued remote calls. A failed acquisition stops the run
(it cannot occur when the oracle accepts the Add request). -/
def runRegOps (oracle : ModifyReq → Bool) (g path : String) :
    List RegOp → VsmbMap → VsmbMap × List ModifyReq
  | [], s => (s, [])
  | RegOp.acq :: rest, s =>
      let a := acquireVSMB oracle s g path
      match a.1 with
      | Except.ok s1 =>
          let r := runRegOps oracle g path rest s1
          (r.1, a.2 ++ r.2)
      | Except.error _ => (s, a.2)
  | RegOp.rel :: rest, s =>
      let r0 := removeVSMB oracle s g
      let r := runRegOps oracle g path rest r0.2.1
      (r.1, r0.2.2 ++ r.2)

/-- The state effect of one successful acquisition of an identifier:
insert with count 1 when absent, increment when present. -/
def acqState (m : VsmbMap) (g : String) : VsmbMap :=
  match vfind m g with
  | none => vset m g 1
  | some n => vset m g (n + 1)

/-! ### Concrete fixtures used in counterexamples and witnesses -/

/-- An oracle on which every remote call succeeds. -/
def allTrue : ModifyReq → Bool := fun _ => true

/-- An oracle on which every remote call fails. -/
def allFalse : ModifyReq → Bool := fun _ => false

/-- An oracle failing exactly the scratch-disk Add request. -/
def scsiAddFails : ModifyReq → Bool := fun r =>
  match r with
  | ModifyReq.scsiAdd _ _ _ _ => false
  | _ => true

/-- An oracle failing exactly the combined-layers Add request. -/
def combinedAddFails : ModifyReq → Bool := fun r =>
  match r with
  | ModifyReq.combinedAdd _ _ => false
  | _ => true

/-- A deterministic identifier derivation that always succeeds. -/
def ntgOk : String → Option String := fun s => some ("g-" ++ s)

/-- An identifier derivation failing exactly on the name "bad". -/
def ntgBad : String → Option String := fun s => if s = "bad" then none else some s

/-- A layer-driver oracle on which every primitive succeeds. -/
def lopOk : LayerOp → Option String := fun _ => some "C:\\mnt"

/-- An empty 4 x 64 slot table, the shape of scsiLocations.hostPath. -/
def emptyTable : ScsiTable := List.replicate 4 (List.replicate 64 "")

/-- A slot table whose controller 0 is fully occupied while the other
three controllers are free. -/
def ctrl0Full : ScsiTable :=
  List.replicate 64 "occupied" :: List.replicate 3 (List.replicate 64 "")

/-- A registry holding only the identifier of the layer folder "b" with
count 1, used in the unmount counterexample. -/
def vsmbOnlyB : VsmbMap := [("g-b", 1)]

/-- The contribution of one read-only layer to the combined non-fatal
error of the share-release section of Unmount, as a function of the
registry state at which the layer is processed: a derivation failure or
a missing identifier contributes nothing; a count still above 1 after
decrement contributes nothing; a remote Remove failure contributes one
message. -/
def unmountErrContribution (ntg : String → Option String)
    (oracle : ModifyReq → Bool) (s : VsmbMap) (l : String) : Option String :=
  match ntg (fileName l) with
  | none => none
  | some g =>
      match vfind s g with
      | none => none
      | some n =>
          if n - 1 > 0 then none
          else if oracle (ModifyReq.vsmbRemove g) then none
          else some ("failed to remove vsmb share " ++ l)

/-- The remote call contributed by one read-only layer in the
share-release section of Unmount: one Remove request exactly when the
identifier is present and its decremented count does not stay
positive. -/
def unmountCallContribution (ntg : String → Option String)
    (s : VsmbMap) (l : String) : Option ModifyReq :=
  match ntg (fileName l) with
  | none => none
  | some g =>
      match vfind s g with
      | none => none
      | some n => if n - 1 > 0 then none else some (ModifyReq.vsmbRemove g)

/-- The count an identifier holds after its layer was processed by the
share-release section: decremented when it stays positive, gone
otherwise. -/
def unmountPostCount (s : VsmbMap) (g : String) : Option Int :=
  match vfind s g with
  | none => none
  | some n => if n - 1 > 0 then some (n - 1) else none

/-! ### Lemmas about the association-list map -/

@[simp]
theorem vfind_nil (k : String) : vfind [] k = none := rfl

theorem vfind_vset_self (m : VsmbMap) (k : String) (v : Int) :
    vfind (vset m k v) k = some v := by
  induction m with
  | nil => simp [vset, vfind]
  | cons p rest ih =>
      obtain ⟨k', v'⟩ := p
      by_cases h : k' = k
      · simp [vset, vfind, h]
      · simp [vset, vfind, h, ih]

theorem vfind_vset_ne (m : VsmbMap) (k k' : String) (v : Int) (h : k' ≠ k) :
    vfind (vset m k v) k' = vfind m k' := by
  induction m with
  | nil => simp [vset, vfind, h.symm]
  | cons p rest ih =>
      obtain ⟨a, b⟩ := p
      by_cases ha : a = k
      · simp [vset, vfind, ha, h.symm]
      · simp only [vset, if_neg ha, vfind]
        rw [ih]

theorem vset_vset (m : VsmbMap) (k : String) (a b : Int) :
    vset (vset m k a) k b = vset m k b := by
  induction m with
  | nil => simp [vset]
  | cons p rest ih =>
      obtain ⟨k', v'⟩ := p
      by_cases h : k' = k
      · simp [vset, h]
      · simp [vset, h, ih]

theorem vset_vfind_self (m : VsmbMap) (k : String) (v : Int)
    (h : vfind m k = some v) : vset m k v = m := by
  induction m with
  | nil => simp [vfind] at h
  | cons p rest ih =>
      obtain ⟨k', v'⟩ := p
      by_cases hk : k' = k
      · subst hk
        simp [vfind] at h
        simp [vset, h]
      · simp [vfind, hk] at h
        simp [vset, hk, ih h]

theorem verase_vset (m : VsmbMap) (k : String) (v : Int) :
    verase (vset m k v) k = verase m k := by
  induction m with
  | nil => simp [vset, verase]
  | cons p rest ih =>
      obtain ⟨k', v'⟩ := p
      by_cases h : k' = k
      · simp [vset, verase, h]
      · simp [vset, verase, h, ih]

theorem keys_mem_of_vfind_ne_none (m : VsmbMap) (k : String)
    (h : vfind m k ≠ none) : k ∈ m.map Prod.fst := by
  induction m with
  | nil => simp [vfind] at h
  | cons p rest ih =>
      obtain ⟨k', v'⟩ := p
      by_cases hk : k' = k
      · simp [hk]
      · simp [vfind, hk] at h
        simpa using Or.inr (ih h)

theorem vfind_eq_none_of_not_mem (m : VsmbMap) (k : String)
    (h : k ∉ m.map Prod.fst) : vfind m k = none := by
  by_contra hne
  exact h (keys_mem_of_vfind_ne_none m k hne)

theorem verase_of_none (m : VsmbMap) (k : String) (h : vfind m k = none) :
    verase m k = m := by
  induction m with
  | nil => simp [verase]
  | cons p rest ih =>
      obtain ⟨k', v'⟩ := p
      by_cases hk : k' = k
      · simp [vfind, hk] at h
      · simp [vfind, hk] at h
        simp [verase, hk, ih h]

theorem vfind_verase_ne (m : VsmbMap) (k k' : String) (h : k' ≠ k) :
    vfind (verase m k) k' = vfind m k' := by
  induction m with
  | nil => simp [verase]
  | cons p rest ih =>
      obtain ⟨a, b⟩ := p
      by_cases ha : a = k
      · simp [verase, vfind, ha, h.symm]
      · simp only [verase, if_neg ha, vfind]
        rw [ih]

theorem verase_sublist (m : VsmbMap) (k : String) : List.Sublist (verase m k) m := by
  induction m with
  | nil => simp [verase]
  | cons p rest ih =>
      obtain ⟨k', v'⟩ := p
      by_cases h : k' = k
      · simp only [verase, if_pos h]
        exact List.sublist_cons_self _ _
      · simp only [verase, if_neg h]
        exact ih.cons₂ _

theorem vfind_some_mem (m : VsmbMap) (k : String) (v : Int)
    (h : vfind m k = some v) : (k, v) ∈ m := by
  induction m with
  | nil => simp [vfind] at h
  | cons p rest ih =>
      obtain ⟨k', v'⟩ := p
      by_cases hk : k' = k
      · subst hk
        simp [vfind] at h
        simp [h]
      · simp [vfind, hk] at h
        simp [ih h]

theorem mem_keys_vset (m : VsmbMap) (k a : String) (v : Int)
    (h : a ∈ (vset m k v).map Prod.fst) : a ∈ m.map Prod.fst ∨ a = k := by
  induction m with
  | nil =>
      simp [vset] at h
      exact Or.inr h
  | cons p rest ih =>
      obtain ⟨k', v'⟩ := p
      by_cases hk : k' = k
      · subst hk
        simp [vset] at h
        rcases h with h | h
        · exact Or.inr h
        · exact Or.inl (by simpa using Or.inr h)
      · simp [vset, hk] at h
        rcases h with h | h
        · exact Or.inl (by simp [h])
        · rcases ih (by simpa using h) with h2 | h2
          · exact Or.inl (by simpa using Or.inr h2)
          · exact Or.inr h2

theorem uniqueKeys_vset (m : VsmbMap) (k : String) (v : Int)
    (h : UniqueKeys m) : UniqueKeys (vset m k v) := by
  induction m with
  | nil => simp [UniqueKeys, vset]
  | cons p rest ih =>
      obtain ⟨k', v'⟩ := p
      simp only [UniqueKeys, List.map_cons, List.nodup_cons] at h
      by_cases hk : k' = k
      · subst hk
        simpa [vset, UniqueKeys] using h
      · have h2 := ih h.2
        simp only [vset, if_neg hk, UniqueKeys, List.map_cons, List.nodup_cons]
        refine ⟨fun hmem => ?_, h2⟩
        rcases mem_keys_vset rest k k' v hmem with hh | hh
        · exact h.1 hh
        · exact hk hh

theorem uniqueKeys_verase (m : VsmbMap) (k : String) (h : UniqueKeys m) :
    UniqueKeys (verase m k) := by
  exact h.sublist ((verase_sublist m k).map Prod.fst)

theorem vfind_verase_self (m : VsmbMap) (k : String) (h : UniqueKeys m) :
    vfind (verase m k) k = none := by
  induction m with
  | nil => simp [verase]
  | cons p rest ih =>
      obtain ⟨k', v'⟩ := p
      simp only [UniqueKeys, List.map_cons, List.nodup_cons] at h
      by_cases hk : k' = k
      · subst hk
        simp only [verase, if_pos rfl]
        exact vfind_eq_none_of_not_mem rest k' h.1
      · simp only [verase, if_neg hk, vfind, if_neg hk]
        exact ih h.2

theorem mem_verase (m : VsmbMap) (k : String) (p : String × Int)
    (h : p ∈ verase m k) : p ∈ m :=
  (verase_sublist m k).subset h

theorem mem_vset (m : VsmbMap) (k : String) (v : Int) (p : String × Int)
    (h : p ∈ vset m k v) : p = (k, v) ∨ p ∈ m := by
  induction m with
  | nil =>
      simp [vset] at h
      exact Or.inl h
  | cons q rest ih =>
      obtain ⟨k', v'⟩ := q
      by_cases hk : k' = k
      · subst hk
        simp [vset] at h
        rcases h with h | h
        · exact Or.inl h
        · exact Or.inr (by simp [h])
      · simp [vset, hk] at h
        rcases h with h | h
        · exact Or.inr (by simp [h])
        · rcases ih (by simpa using h) with h2 | h2
          · exact Or.inl h2
          · exact Or.inr (by simp [h2])

/-! ### Lemmas about the slot table -/

theorem lsetL_lsetL {α : Type} (l : List α) (i : Nat) (a b : α) :
    lsetL (lsetL l i a) i b = lsetL l i b := by
  induction l generalizing i with
  | nil => simp [lsetL]
  | cons x rest ih =>
      cases i with
      | zero => simp [lsetL]
      | succ n => simp [lsetL, ih]

theorem lsetL_lgetD_self {α : Type} (l : List α) (i : Nat) (d : α) :
    lsetL l i (lgetD l i d) = l := by
  induction l generalizing i with
  | nil => simp [lsetL]
  | cons x rest ih =>
      cases i with
      | zero => simp [lsetL, lgetD]
      | succ n => simp [lsetL, lgetD, ih]

theorem lgetD_lsetL_self {α : Type} (l : List α) (i : Nat) (v d : α) :
    lgetD (lsetL l i v) i d = if i < l.length then v else d := by
  induction l generalizing i with
  | nil => simp [lsetL, lgetD]
  | cons x rest ih =>
      cases i with
      | zero => simp [lsetL, lgetD]
      | succ n => simpa [lsetL, lgetD] using ih n

theorem findIdxAux_some {α : Type} (p : α → Bool) (l : List α) (i : Nat) (d : α)
    (h : findIdxAux p l = some i) : p (lgetD l i d) = true ∧ i < l.length := by
  induction l generalizing i with
  | nil => simp [findIdxAux] at h
  | cons x rest ih =>
      by_cases hp : p x
      · simp [findIdxAux, hp] at h
        subst h
        simp [lgetD, hp]
      · simp [findIdxAux, hp] at h
        obtain ⟨j, hj, hji⟩ := h
        subst hji
        have := ih j hj
        simpa [lgetD] using this

theorem findIdxAux_isSome_of_mem {α : Type} (p : α → Bool) (l : List α) (a : α)
    (hmem : a ∈ l) (hp : p a = true) : ∃ i, findIdxAux p l = some i := by
  induction l with
  | nil => simp at hmem
  | cons x rest ih =>
      by_cases hx : p x
      · exact ⟨0, by simp [findIdxAux, hx]⟩
      · rcases List.mem_cons.1 hmem with h | h
        · subst h; exact absurd hp (by simp [hx])
        · obtain ⟨j, hj⟩ := ih h
          exact ⟨j + 1, by simp [findIdxAux, hx, hj]⟩

/-! ### Claim C1 -/

/-- C1: the claim fails on the code. With scope
UnmountOperationAll = UnmountOperationSCSI ||| UnmountOperationVSMB (the
default full unmount), the v2 hosted Unmount performs NEITHER section of
work: both guards test (op ||| bit) = bit, which is false for the
combined value, so the call returns nil immediately, issues no remote
request and leaves both tables untouched - contradicting the claim (and
the stated meaning of UnmountOperationAll) that the combined scope
performs both the scratch-detach and the share-release work. -/
theorem unmountAll_does_nothing (ntg : String → Option String)
    (oracle : ModifyReq → Bool) (lop : LayerOp → Option String)
    (l1 l2 : String) (vsmb0 : VsmbMap) (scsi0 : ScsiTable) :
    Unmount ntg oracle lop [l1, l2] SchemaVersion.v20 true UnmountOperationAll vsmb0 scsi0 =
      ⟨[], vsmb0, scsi0, [], []⟩ := rfl

/-! ### Claim C3 -/

/-- C3: the claim fails on the code: neither premised failure scenario
performs the full rollback the claim states. With controller 0 full and
a free slot on controller 1, Mount returns the too-many-attachments
error but releases neither the two shares acquired by this call (their
counts stay 1) nor the slot just reserved at (1,0). With the
scratch-disk Add request failing after slot (0,0) was reserved, Mount
releases the shares but leaves the reserved slot occupied. -/
theorem mount_no_rollback_on_scsi_paths :
    ((Mount ntgOk allTrue lopOk ["b", "r", "s"] SchemaVersion.v20 true [] ctrl0Full).result
        = Except.error "too many SCSI attachments for a single controller" ∧
      vfind (Mount ntgOk allTrue lopOk ["b", "r", "s"] SchemaVersion.v20 true [] ctrl0Full).vsmb
        "g-b" = some 1 ∧
      vfind (Mount ntgOk allTrue lopOk ["b", "r", "s"] SchemaVersion.v20 true [] ctrl0Full).vsmb
        "g-r" = some 1 ∧
      getSlot (Mount ntgOk allTrue lopOk ["b", "r", "s"] SchemaVersion.v20 true [] ctrl0Full).scsi
        1 0 = joinPath "s" "sandbox.vhdx") ∧
    ((∃ e, (Mount ntgOk scsiAddFails lopOk ["b", "r", "s"] SchemaVersion.v20 true [] emptyTable).result
        = Except.error e) ∧
      vfind (Mount ntgOk scsiAddFails lopOk ["b", "r", "s"] SchemaVersion.v20 true [] emptyTable).vsmb
        "g-b" = none ∧
      vfind (Mount ntgOk scsiAddFails lopOk ["b", "r", "s"] SchemaVersion.v20 true [] emptyTable).vsmb
        "g-r" = none ∧
      getSlot (Mount ntgOk scsiAddFails lopOk ["b", "r", "s"] SchemaVersion.v20 true [] emptyTable).scsi
        0 0 = joinPath "s" "sandbox.vhdx") :=
  ⟨⟨rfl, rfl, rfl, rfl⟩, ⟨⟨"failed to modify sandbox attachment", rfl⟩, rfl, rfl, rfl⟩⟩

/-! ### Claim C4 -/

/-- C4 counterexample: when the remote Remove fails, removeSCSI does NOT
leave the slot free: on a table whose slot (0,0) holds a disk path and
an oracle failing every request, the call returns the error and the
slot entry is unchanged, still occupied. -/
theorem removeSCSI_failure_keeps_slot :
    (removeSCSI allFalse [["vhd"]] 0 0 "").2.1 = [["vhd"]] ∧
    getSlot (removeSCSI allFalse [["vhd"]] 0 0 "").2.1 0 0 = "vhd" ∧
    (∃ e, (removeSCSI allFalse [["vhd"]] 0 0 "").1 = Except.error e) :=
  ⟨rfl, rfl, ⟨"failed SCSI modify", rfl⟩⟩

theorem getSlot_setSlot_empty (t : ScsiTable) (c l : Nat) :
    getSlot (setSlot t c l "") c l = "" := by
  unfold getSlot setSlot
  rw [lgetD_lsetL_self]
  by_cases hc : c < t.length
  · rw [if_pos hc, lgetD_lsetL_self]
    by_cases hl : l < (lgetD t c []).length
    · rw [if_pos hl]
    · rw [if_neg hl]
  · rw [if_neg hc]
    simp [lgetD]

/-- C4 amended: removeSCSI clears the slot hostPath only when the remote
Remove request succeeds; when the remote call fails the error is
returned and the local table is left unchanged, the slot still
occupied. On success the slot is cleared. -/
theorem removeSCSI_clears_iff_remote_ok (oracle : ModifyReq → Bool)
    (t : ScsiTable) (c l : Nat) (cp : String) :
    (oracle (ModifyReq.scsiRemove c l (if cp = "" then none else some cp)) = false →
      (removeSCSI oracle t c l cp).2.1 = t ∧
      ∃ e, (removeSCSI oracle t c l cp).1 = Except.error e) ∧
    (oracle (ModifyReq.scsiRemove c l (if cp = "" then none else some cp)) = true →
      (removeSCSI oracle t c l cp).1 = Except.ok () ∧
      getSlot (removeSCSI oracle t c l cp).2.1 c l = "") := by
  constructor
  · intro h
    refine ⟨?_, ⟨"failed SCSI modify", ?_⟩⟩ <;> simp [removeSCSI, h]
  · intro h
    refine ⟨?_, ?_⟩
    · simp [removeSCSI, h]
    · simp only [removeSCSI, h, if_pos rfl]
      exact getSlot_setSlot_empty t c l

/-- Witness for the amended C4 theorem at a concrete occupied slot. -/
theorem removeSCSI_clears_iff_remote_ok_witness :
    (allTrue (ModifyReq.scsiRemove 0 0 (if ("" : String) = "" then none else some "")) = true) ∧
    ((removeSCSI allTrue [["vhd"]] 0 0 "").1 = Except.ok () ∧
      getSlot (removeSCSI allTrue [["vhd"]] 0 0 "").2.1 0 0 = "") :=
  ⟨rfl, (removeSCSI_clears_iff_remote_ok allTrue [["vhd"]] 0 0 "").2 rfl⟩

/-! ### Claim C7 -/

/-- C7 counterexample: the v2 hosted Mount path performs no stack-length
validation at all: a single-entry (scratch-only) stack is not rejected
with the "need at least two layers" validation error; Mount proceeds and
provisions the scratch attachment and the combined layers (with an
empty read-only layer list) successfully. -/
theorem mount_hosted_single_layer_proceeds :
    (Mount ntgOk allTrue lopOk ["s"] SchemaVersion.v20 true [] emptyTable).result =
      Except.ok (MountRetVal.combined ("C:\\" ++ "g-s") []) ∧
    (Mount ntgOk allTrue lopOk ["s"] SchemaVersion.v20 true [] emptyTable).calls =
      [ModifyReq.scsiAdd 0 0 (joinPath "s" "sandbox.vhdx") ("C:\\" ++ "g-s"),
        ModifyReq.combinedAdd ("C:\\" ++ "g-s") []] :=
  ⟨rfl, rfl⟩

/-- C7 amended: the fewer-than-two-layers validation error is returned,
before any provisioning (no remote request, no layer-driver call, state
untouched), exactly on the direct paths: v1 schema, or v2 schema
without a hosting system. The VM-hosted v2 path has no such check. -/
theorem mount_direct_requires_two_layers (ntg : String → Option String)
    (oracle : ModifyReq → Bool) (lop : LayerOp → Option String)
    (layerFolders : List String) (sv : SchemaVersion) (hosted : Bool)
    (vsmb0 : VsmbMap) (scsi0 : ScsiTable)
    (hdirect : (sv.IsV10 || (sv.IsV20 && !hosted)) = true)
    (hlen : layerFolders.length < 2) :
    Mount ntg oracle lop layerFolders sv hosted vsmb0 scsi0 =
      ⟨Except.error "need at least two layers - base and sandbox", vsmb0, scsi0, [], [], []⟩ := by
  simp [Mount, hdirect, hlen]

/-- Witness for the amended C7 theorem, at a one-entry stack in direct
v1 mode. -/
theorem mount_direct_requires_two_layers_witness :
    ((SchemaVersion.v10.IsV10 || (SchemaVersion.v10.IsV20 && !false)) = true) ∧
    (["a"].length < 2) ∧
    Mount ntgOk allTrue lopOk ["a"] SchemaVersion.v10 false [] emptyTable =
      ⟨Except.error "need at least two layers - base and sandbox", [], emptyTable, [], [], []⟩ :=
  ⟨rfl, by decide,
    mount_direct_requires_two_layers ntgOk allTrue lopOk ["a"] SchemaVersion.v10 false []
      emptyTable rfl (by decide)⟩

/-! ### Claim C9 -/

/-- C9: the claim fails on the code: on the identifier-derivation failure
path inside the acquisition loop of the v2 hosted Mount, the share
rollback helper (which itself acquires the vsmbShares lock) is invoked
while the caller still holds that lock. Mounting a stack whose second
read-only layer fails derivation (with one share already acquired, so
the helper does take the lock) records exactly one lock-taking rollback
invocation, and it happens with the lock held. -/
theorem mount_rollback_invoked_under_lock :
    (Mount ntgBad allTrue lopOk ["good", "bad", "s"] SchemaVersion.v20 true [] emptyTable).rollbackLocked
      = [true] ∧
    (∃ e, (Mount ntgBad allTrue lopOk ["good", "bad", "s"] SchemaVersion.v20 true [] emptyTable).result
      = Except.error e) :=
  ⟨rfl, ⟨"NameToGuid failed on bad", rfl⟩⟩

/-! ### Claim C10 -/

/-- C10: the v2 hosted Unmount rejects a stack of fewer than two entries
immediately, for every scope value, before any teardown (no remote
request, no layer-driver call, state untouched); the direct-mode
unmount, in contrast, accepts a single-entry stack and proceeds to the
layer-driver teardown. -/
theorem unmount_v2_requires_two_layers :
    (∀ (ntg : String → Option String) (oracle : ModifyReq → Bool)
        (lop : LayerOp → Option String) (layerFolders : List String) (op : Nat)
        (vsmb0 : VsmbMap) (scsi0 : ScsiTable),
      layerFolders.length < 2 →
      Unmount ntg oracle lop layerFolders SchemaVersion.v20 true op vsmb0 scsi0 =
        ⟨["at least two layers are required for unmount"], vsmb0, scsi0, [], []⟩) ∧
    (∀ (ntg : String → Option String) (oracle : ModifyReq → Bool)
        (lop : LayerOp → Option String) (l : String)
        (vsmb0 : VsmbMap) (scsi0 : ScsiTable),
      (Unmount ntg oracle lop [l] SchemaVersion.v20 false UnmountOperationAll vsmb0 scsi0).err ≠
        ["at least two layers are required for unmount"] ∧
      (Unmount ntg oracle lop [l] SchemaVersion.v20 false UnmountOperationAll vsmb0 scsi0).layerOps
        ≠ []) := by
  constructor
  · intro ntg oracle lop layerFolders op vsmb0 scsi0 h
    simp [Unmount, SchemaVersion.IsV10, SchemaVersion.IsV20, h]
  · intro ntg oracle lop l vsmb0 scsi0
    cases hu : lop (LayerOp.unprepare (fileDir l) (fileName l)) with
    | none =>
        constructor <;> simp [Unmount, SchemaVersion.IsV10, SchemaVersion.IsV20,
          UnmountOperationAll, UnmountOperationSCSI, UnmountOperationVSMB, hu]
    | some x =>
        cases hd : lop (LayerOp.deactivate (fileDir l) (fileName l)) with
        | none =>
            constructor <;> simp [Unmount, SchemaVersion.IsV10, SchemaVersion.IsV20,
              UnmountOperationAll, UnmountOperationSCSI, UnmountOperationVSMB, hu, hd]
        | some y =>
            constructor <;> simp [Unmount, SchemaVersion.IsV10, SchemaVersion.IsV20,
              UnmountOperationAll, UnmountOperationSCSI, UnmountOperationVSMB, hu, hd]

/-- Witness for the C10 theorem at a concrete one-entry stack. -/
theorem unmount_v2_requires_two_layers_witness :
    (["x"].length < 2) ∧
    Unmount ntgOk allTrue lopOk ["x"] SchemaVersion.v20 true UnmountOperationAll [] emptyTable =
      ⟨["at least two layers are required for unmount"], [], emptyTable, [], []⟩ :=
  ⟨by decide,
    unmount_v2_requires_two_layers.1 ntgOk allTrue lopOk ["x"] UnmountOperationAll []
      emptyTable (by decide)⟩

/-! ### Claim C5 -/

theorem runRegOps_acq_present (oracle : ModifyReq → Bool) (g path : String) :
    ∀ (j : Nat) (rest : List RegOp) (s : VsmbMap) (m : Int), vfind s g = some m →
      ∃ s1, runRegOps oracle g path (List.replicate j RegOp.acq ++ rest) s =
        runRegOps oracle g path rest s1 ∧ vfind s1 g = some (m + j) := by
  intro j
  induction j with
  | zero => intro rest s m h; exact ⟨s, rfl, by simpa using h⟩
  | succ j ih =>
      intro rest s m h
      have hstep : acquireVSMB oracle s g path = (Except.ok (vset s g (m + 1)), []) := by
        simp [acquireVSMB, h]
      have hv : vfind (vset s g (m + 1)) g = some (m + 1) := vfind_vset_self s g (m + 1)
      obtain ⟨s1, hrun, hs1⟩ := ih rest (vset s g (m + 1)) (m + 1) hv
      refine ⟨s1, ?_, ?_⟩
      · rw [List.replicate_succ, List.cons_append]
        simp only [runRegOps, hstep, List.nil_append]
        rw [hrun]
      · rw [hs1]
        congr 1
        push_cast
        ring

theorem runRegOps_rel_toZero (oracle : ModifyReq → Bool) (g path : String)
    (hrem : oracle (ModifyReq.vsmbRemove g) = true) :
    ∀ (c : Nat) (s : VsmbMap), 0 < c → vfind s g = some (c : Int) →
      (runRegOps oracle g path (List.replicate c RegOp.rel) s).2 =
        [ModifyReq.vsmbRemove g] := by
  intro c
  induction c with
  | zero => intro s h0 _; exact absurd h0 (by simp)
  | succ c ih =>
      intro s _ hs
      cases c with
      | zero =>
          have hone : removeVSMB oracle s g =
              (Except.ok (), verase (vset s g 0) g, [ModifyReq.vsmbRemove g]) := by
            simp [removeVSMB, hs, hrem]
          simp [List.replicate_succ, runRegOps, hone]
      | succ c2 =>
          have hpos : ((((c2 + 1 : Nat) + 1 : Nat)) : Int) - 1 ≠ 0 := by
            push_cast
            omega
          have hstep : removeVSMB oracle s g =
              (Except.ok (), vset s g (((c2 + 1 + 1 : Nat) : Int) - 1), []) := by
            simp only [removeVSMB, hs]
            rw [if_neg hpos]
          have hv : vfind (vset s g (((c2 + 1 + 1 : Nat) : Int) - 1)) g
              = some ((c2 + 1 : Nat) : Int) := by
            rw [vfind_vset_self]
            congr 1
            push_cast
            ring
          have := ih (vset s g (((c2 + 1 + 1 : Nat) : Int) - 1)) (by omega) hv
          simp only [List.replicate_succ, runRegOps, hstep]
          simpa using this

/-- C5: the first acquisition of an absent identifier issues exactly one
remote Add and inserts the identifier with count 1; an acquisition of a
present identifier issues no remote call and only increments the count;
and over a cycle of k acquisitions followed by k releases starting from
an absent identifier, exactly one remote Add and exactly one remote
Remove are issued in total. -/
theorem acquire_refcount_single_add (oracle : ModifyReq → Bool) (s : VsmbMap)
    (g path : String) (hadd : oracle (ModifyReq.vsmbAdd g path) = true) :
    (vfind s g = none →
      acquireVSMB oracle s g path =
        (Except.ok (vset s g 1), [ModifyReq.vsmbAdd g path]) ∧
      vfind (vset s g 1) g = some 1) ∧
    (∀ n : Int, vfind s g = some n →
      acquireVSMB oracle s g path = (Except.ok (vset s g (n + 1)), []) ∧
      vfind (vset s g (n + 1)) g = some (n + 1)) ∧
    (∀ k : Nat, 0 < k → vfind s g = none →
      oracle (ModifyReq.vsmbRemove g) = true →
      (runRegOps oracle g path
          (List.replicate k RegOp.acq ++ List.replicate k RegOp.rel) s).2 =
        [ModifyReq.vsmbAdd g path, ModifyReq.vsmbRemove g]) := by
  refine ⟨?_, ?_, ?_⟩
  · intro h
    exact ⟨by simp [acquireVSMB, h, hadd], vfind_vset_self s g 1⟩
  · intro n h
    exact ⟨by simp [acquireVSMB, h], vfind_vset_self s g (n + 1)⟩
  · intro k hk hnone hrem
    obtain ⟨j, rfl⟩ : ∃ j, k = j + 1 := ⟨k - 1, by omega⟩
    have hstep : acquireVSMB oracle s g path =
        (Except.ok (vset s g 1), [ModifyReq.vsmbAdd g path]) := by
      simp [acquireVSMB, hnone, hadd]
    have hv1 : vfind (vset s g 1) g = some (1 : Int) := vfind_vset_self s g 1
    obtain ⟨s1, hrun, hs1⟩ := runRegOps_acq_present oracle g path j
      (List.replicate (j + 1) RegOp.rel) (vset s g 1) 1 hv1
    have hs1c : vfind s1 g = some ((j + 1 : Nat) : Int) := by
      rw [hs1]
      congr 1
      push_cast
      ring
    have hrel := runRegOps_rel_toZero oracle g path hrem (j + 1) s1 (by omega) hs1c
    rw [List.replicate_succ, List.cons_append]
    simp only [runRegOps, hstep]
    rw [hrun, hrel]
    rfl

/-- Witness for the C5 theorem on the empty registry. -/
theorem acquire_refcount_single_add_witness :
    (allTrue (ModifyReq.vsmbAdd "g" "p") = true) ∧
    ((vfind [] "g" = none →
      acquireVSMB allTrue [] "g" "p" =
        (Except.ok (vset [] "g" 1), [ModifyReq.vsmbAdd "g" "p"]) ∧
      vfind (vset [] "g" 1) "g" = some 1) ∧
    (∀ n : Int, vfind [] "g" = some n →
      acquireVSMB allTrue [] "g" "p" = (Except.ok (vset [] "g" (n + 1)), []) ∧
      vfind (vset [] "g" (n + 1)) "g" = some (n + 1)) ∧
    (∀ k : Nat, 0 < k → vfind [] "g" = none →
      allTrue (ModifyReq.vsmbRemove "g") = true →
      (runRegOps allTrue "g" "p"
          (List.replicate k RegOp.acq ++ List.replicate k RegOp.rel) []).2 =
        [ModifyReq.vsmbAdd "g" "p", ModifyReq.vsmbRemove "g"])) :=
  ⟨rfl, acquire_refcount_single_add allTrue [] "g" "p" rfl⟩

/-! ### Claim C6 -/

theorem removeVSMB_state_of_some (oracle : ModifyReq → Bool) (m : VsmbMap)
    (g : String) (n : Int) (h : vfind m g = some n) :
    (removeVSMB oracle m g).2.1 =
      if n - 1 = 0 then verase m g else vset m g (n - 1) := by
  simp only [removeVSMB, h]
  by_cases h0 : n - 1 = 0
  · rw [if_pos h0, if_pos h0]
    split <;> simp [h0, verase_vset]
  · rw [if_neg h0, if_neg h0]

theorem removeVSMB_calls_of_some (oracle : ModifyReq → Bool) (m : VsmbMap)
    (g : String) (n : Int) (h : vfind m g = some n) :
    (removeVSMB oracle m g).2.2 =
      if n - 1 = 0 then [ModifyReq.vsmbRemove g] else [] := by
  simp only [removeVSMB, h]
  by_cases h0 : n - 1 = 0
  · rw [if_pos h0, if_pos h0]
    split <;> rfl
  · rw [if_neg h0, if_neg h0]

/-- C6: removeVSMB on an absent identifier fails with the not-registered
error and changes nothing; on a present identifier (whose count n is at
least 1 by the registry invariant) it decrements the count, deleting
the entry and issuing exactly one remote Remove precisely when the
count reaches 0 (n = 1), and issuing no remote call while the remaining
count stays positive; the invariant that every present identifier has
count at least 1 is preserved, so no stored count ever becomes
negative. -/
theorem removeVSMB_refcount (oracle : ModifyReq → Bool) (s : VsmbMap) (g : String)
    (hu : UniqueKeys s) (hinv : VsmbInv s) :
    (vfind s g = none →
      ∃ e, removeVSMB oracle s g = (Except.error e, s, [])) ∧
    (∀ n : Int, vfind s g = some n →
      ((removeVSMB oracle s g).2.2 =
        if n = 1 then [ModifyReq.vsmbRemove g] else []) ∧
      (n = 1 → vfind (removeVSMB oracle s g).2.1 g = none) ∧
      (1 < n → (removeVSMB oracle s g).2.1 = vset s g (n - 1) ∧
        vfind (removeVSMB oracle s g).2.1 g = some (n - 1) ∧
        (removeVSMB oracle s g).1 = Except.ok ()) ∧
      VsmbInv (removeVSMB oracle s g).2.1) := by
  constructor
  · intro h
    exact ⟨"failed to remove vsmbShare " ++ g ++ " as it is not in utility VM",
      by simp [removeVSMB, h]⟩
  · intro n h
    have hn1 : 1 ≤ n := hinv _ (vfind_some_mem s g n h)
    have hiff : (n - 1 = 0) ↔ (n = 1) := by omega
    refine ⟨?_, ?_, ?_, ?_⟩
    · rw [removeVSMB_calls_of_some oracle s g n h]
      by_cases h1 : n = 1
      · rw [if_pos (hiff.mpr h1), if_pos h1]
      · rw [if_neg (fun hh => h1 (hiff.mp hh)), if_neg h1]
    · intro h1
      rw [removeVSMB_state_of_some oracle s g n h, if_pos (hiff.mpr h1)]
      exact vfind_verase_self s g hu
    · intro h1
      have hne : ¬ (n - 1 = 0) := by omega
      rw [removeVSMB_state_of_some oracle s g n h, if_neg hne]
      refine ⟨rfl, vfind_vset_self s g (n - 1), ?_⟩
      simp [removeVSMB, h, hne]
    · rw [removeVSMB_state_of_some oracle s g n h]
      by_cases h0 : n - 1 = 0
      · rw [if_pos h0]
        intro p hp
        exact hinv p (mem_verase s g p hp)
      · rw [if_neg h0]
        intro p hp
        rcases mem_vset s g (n - 1) p hp with hh | hh
        · rw [hh]
          simp only
          omega
        · exact hinv p hh

/-- Witness for the C6 theorem on a two-entry registry. -/
theorem removeVSMB_refcount_witness :
    UniqueKeys [(("g" : String), (2 : Int)), ("h", 1)] ∧
    VsmbInv [(("g" : String), (2 : Int)), ("h", 1)] ∧
    ((vfind [(("g" : String), (2 : Int)), ("h", 1)] "g" = none →
      ∃ e, removeVSMB allTrue [("g", 2), ("h", 1)] "g" =
        (Except.error e, [("g", 2), ("h", 1)], [])) ∧
    (∀ n : Int, vfind [(("g" : String), (2 : Int)), ("h", 1)] "g" = some n →
      ((removeVSMB allTrue [("g", 2), ("h", 1)] "g").2.2 =
        if n = 1 then [ModifyReq.vsmbRemove "g"] else []) ∧
      (n = 1 → vfind (removeVSMB allTrue [("g", 2), ("h", 1)] "g").2.1 "g" = none) ∧
      (1 < n → (removeVSMB allTrue [("g", 2), ("h", 1)] "g").2.1 =
          vset [("g", 2), ("h", 1)] "g" (n - 1) ∧
        vfind (removeVSMB allTrue [("g", 2), ("h", 1)] "g").2.1 "g" = some (n - 1) ∧
        (removeVSMB allTrue [("g", 2), ("h", 1)] "g").1 = Except.ok ()) ∧
      VsmbInv (removeVSMB allTrue [("g", 2), ("h", 1)] "g").2.1)) :=
  ⟨by unfold UniqueKeys; decide, by unfold VsmbInv; decide,
    removeVSMB_refcount allTrue [("g", 2), ("h", 1)] "g" (by unfold UniqueKeys; decide)
      (by unfold VsmbInv; decide)⟩

/-! ### Claim C2 -/

theorem acqState_of_none (m : VsmbMap) (g : String) (h : vfind m g = none) :
    acqState m g = vset m g 1 := by
  simp [acqState, h]

theorem acqState_of_some (m : VsmbMap) (g : String) (n : Int)
    (h : vfind m g = some n) : acqState m g = vset m g (n + 1) := by
  simp [acqState, h]

theorem vfind_acqState_ne (m : VsmbMap) (g k : String) (h : k ≠ g) :
    vfind (acqState m g) k = vfind m k := by
  cases hm : vfind m g with
  | none => rw [acqState_of_none m g hm, vfind_vset_ne m g k 1 h]
  | some n => rw [acqState_of_some m g n hm, vfind_vset_ne m g k (n + 1) h]

theorem uniqueKeys_acqState (m : VsmbMap) (g : String) (h : UniqueKeys m) :
    UniqueKeys (acqState m g) := by
  cases hm : vfind m g with
  | none => rw [acqState_of_none m g hm]; exact uniqueKeys_vset m g 1 h
  | some n => rw [acqState_of_some m g n hm]; exact uniqueKeys_vset m g (n + 1) h

theorem removeVSMB_state_of_none (oracle : ModifyReq → Bool) (m : VsmbMap)
    (g : String) (h : vfind m g = none) : (removeVSMB oracle m g).2.1 = m := by
  simp [removeVSMB, h]

theorem uniqueKeys_removeVSMB (oracle : ModifyReq → Bool) (m : VsmbMap)
    (g : String) (hu : UniqueKeys m) : UniqueKeys (removeVSMB oracle m g).2.1 := by
  cases h : vfind m g with
  | none => rw [removeVSMB_state_of_none oracle m g h]; exact hu
  | some n =>
      rw [removeVSMB_state_of_some oracle m g n h]
      by_cases h0 : n - 1 = 0
      · rw [if_pos h0]; exact uniqueKeys_verase m g hu
      · rw [if_neg h0]; exact uniqueKeys_vset m g (n - 1) hu

theorem vfind_removeVSMB (oracle : ModifyReq → Bool) (m : VsmbMap)
    (g k : String) (n : Int) (hu : UniqueKeys m) (h : vfind m g = some n) :
    vfind (removeVSMB oracle m g).2.1 k =
      if k = g then (if n - 1 = 0 then none else some (n - 1)) else vfind m k := by
  rw [removeVSMB_state_of_some oracle m g n h]
  by_cases h0 : n - 1 = 0 <;> by_cases hk : k = g
  · subst hk
    rw [if_pos h0, if_pos rfl, if_pos h0]
    exact vfind_verase_self m k hu
  · rw [if_pos h0, if_neg hk]
    exact vfind_verase_ne m g k hk
  · subst hk
    rw [if_neg h0, if_pos rfl, if_neg h0]
    exact vfind_vset_self m k (n - 1)
  · rw [if_neg h0, if_neg hk]
    exact vfind_vset_ne m g k (n - 1) hk

theorem mountVsmbLoop_two (ntg : String → Option String) (oracle : ModifyReq → Bool)
    (l1 l2 g1 g2 : String) (m : VsmbMap)
    (h1 : ntg (fileName l1) = some g1) (h2 : ntg (fileName l2) = some g2)
    (hOvadd : ∀ n p, oracle (ModifyReq.vsmbAdd n p) = true) :
    ∃ cs, mountVsmbLoop ntg oracle [l1, l2] m [] [] [] =
      ⟨Except.ok (), acqState (acqState m g1) g2, [g1, g2], cs, []⟩ := by
  have ha1 : ∃ c1, acquireVSMB oracle m g1 l1 = (Except.ok (acqState m g1), c1) := by
    cases hm : vfind m g1 with
    | none =>
        refine ⟨[ModifyReq.vsmbAdd g1 l1], ?_⟩
        rw [acqState_of_none m g1 hm]
        simp [acquireVSMB, hm, hOvadd]
    | some n =>
        refine ⟨[], ?_⟩
        rw [acqState_of_some m g1 n hm]
        simp [acquireVSMB, hm]
  obtain ⟨c1, ha1⟩ := ha1
  have ha2 : ∃ c2, acquireVSMB oracle (acqState m g1) g2 l2 =
      (Except.ok (acqState (acqState m g1) g2), c2) := by
    cases hm : vfind (acqState m g1) g2 with
    | none =>
        refine ⟨[ModifyReq.vsmbAdd g2 l2], ?_⟩
        rw [acqState_of_none _ g2 hm]
        simp [acquireVSMB, hm, hOvadd]
    | some n =>
        refine ⟨[], ?_⟩
        rw [acqState_of_some _ g2 n hm]
        simp [acquireVSMB, hm]
  obtain ⟨c2, ha2⟩ := ha2
  refine ⟨c1 ++ c2, ?_⟩
  simp [mountVsmbLoop, h1, ha1, h2, ha2]

theorem rollback_two_restores (oracle : ModifyReq → Bool) (m : VsmbMap)
    (g1 g2 : String) (hu : UniqueKeys m) (hinv : VsmbInv m) :
    ∀ k, vfind (removeVSMBOnFailure oracle (acqState (acqState m g1) g2) [g1, g2]).1 k
      = vfind m k := by
  intro k
  have huA : UniqueKeys (acqState m g1) := uniqueKeys_acqState m g1 hu
  have huM : UniqueKeys (acqState (acqState m g1) g2) := uniqueKeys_acqState _ g2 huA
  have hfold : (removeVSMBOnFailure oracle (acqState (acqState m g1) g2) [g1, g2]).1 =
      (removeVSMB oracle
        (removeVSMB oracle (acqState (acqState m g1) g2) g1).2.1 g2).2.1 := by
    simp [removeVSMBOnFailure]
  rw [hfold]
  have hstep1 : ∃ c1, vfind (acqState m g1) g1 = some c1 ∧ 1 ≤ c1 ∧
      ((if c1 - 1 = 0 then none else some (c1 - 1)) = vfind m g1) := by
    cases hm : vfind m g1 with
    | none =>
        refine ⟨1, ?_, by norm_num, ?_⟩
        · rw [acqState_of_none m g1 hm]; exact vfind_vset_self m g1 1
        · rw [if_pos (by norm_num : (1 : Int) - 1 = 0)]
    | some n =>
        have hn : 1 ≤ n := hinv _ (vfind_some_mem m g1 n hm)
        refine ⟨n + 1, ?_, by omega, ?_⟩
        · rw [acqState_of_some m g1 n hm]; exact vfind_vset_self m g1 (n + 1)
        · rw [if_neg (by omega : ¬ ((n + 1 : Int) - 1 = 0))]
          norm_num
  obtain ⟨c1, hc1, hge1, hkey1⟩ := hstep1
  by_cases hg : g1 = g2
  · subst hg
    have hM : vfind (acqState (acqState m g1) g1) g1 = some (c1 + 1) := by
      rw [acqState_of_some _ g1 c1 hc1]; exact vfind_vset_self _ g1 (c1 + 1)
    have hs3 : ∀ q, vfind (removeVSMB oracle (acqState (acqState m g1) g1) g1).2.1 q =
        if q = g1 then some c1 else vfind (acqState (acqState m g1) g1) q := by
      intro q
      rw [vfind_removeVSMB oracle _ g1 q (c1 + 1) huM hM]
      by_cases hq : q = g1
      · rw [if_pos hq, if_pos hq, if_neg (by omega : ¬ ((c1 + 1 : Int) - 1 = 0))]
        norm_num
      · rw [if_neg hq, if_neg hq]
    have hu3 : UniqueKeys (removeVSMB oracle (acqState (acqState m g1) g1) g1).2.1 :=
      uniqueKeys_removeVSMB oracle _ g1 huM
    have hs3g : vfind (removeVSMB oracle (acqState (acqState m g1) g1) g1).2.1 g1
        = some c1 := by rw [hs3 g1, if_pos rfl]
    rw [vfind_removeVSMB oracle _ g1 k c1 hu3 hs3g]
    by_cases hk : k = g1
    · rw [if_pos hk, hk]; exact hkey1
    · rw [if_neg hk, hs3 k, if_neg hk, vfind_acqState_ne _ g1 k hk,
        vfind_acqState_ne _ g1 k hk]
  · have hg2 : g2 ≠ g1 := fun h => hg h.symm
    have hAg2 : vfind (acqState m g1) g2 = vfind m g2 := vfind_acqState_ne m g1 g2 hg2
    have hstep2 : ∃ c2, vfind (acqState (acqState m g1) g2) g2 = some c2 ∧
        ((if c2 - 1 = 0 then none else some (c2 - 1)) = vfind m g2) := by
      cases hm : vfind m g2 with
      | none =>
          refine ⟨1, ?_, ?_⟩
          · rw [acqState_of_none _ g2 (by rw [hAg2]; exact hm)]
            exact vfind_vset_self _ g2 1
          · rw [if_pos (by norm_num : (1 : Int) - 1 = 0)]
      | some n =>
          refine ⟨n + 1, ?_, ?_⟩
          · rw [acqState_of_some _ g2 n (by rw [hAg2]; exact hm)]
            exact vfind_vset_self _ g2 (n + 1)
          · have hn : 1 ≤ n := hinv _ (vfind_some_mem m g2 n hm)
            rw [if_neg (by omega : ¬ ((n + 1 : Int) - 1 = 0))]
            norm_num
    obtain ⟨c2, hc2, hkey2⟩ := hstep2
    have hMg1c : vfind (acqState (acqState m g1) g2) g1 = some c1 := by
      rw [vfind_acqState_ne _ g2 g1 hg]; exact hc1
    have hs3 : ∀ q, vfind (removeVSMB oracle (acqState (acqState m g1) g2) g1).2.1 q =
        if q = g1 then (if c1 - 1 = 0 then none else some (c1 - 1))
        else vfind (acqState (acqState m g1) g2) q :=
      fun q => vfind_removeVSMB oracle _ g1 q c1 huM hMg1c
    have hu3 : UniqueKeys (removeVSMB oracle (acqState (acqState m g1) g2) g1).2.1 :=
      uniqueKeys_removeVSMB oracle _ g1 huM
    have hs3g2 : vfind (removeVSMB oracle (acqState (acqState m g1) g2) g1).2.1 g2
        = some c2 := by rw [hs3 g2, if_neg hg2, hc2]
    rw [vfind_removeVSMB oracle _ g2 k c2 hu3 hs3g2]
    by_cases hk2 : k = g2
    · rw [if_pos hk2, hk2]; exact hkey2
    · rw [if_neg hk2, hs3 k]
      by_cases hk1 : k = g1
      · rw [if_pos hk1, hk1]; exact hkey1
      · rw [if_neg hk1, vfind_acqState_ne _ g2 k hk2, vfind_acqState_ne _ g1 k hk1]

/-- C2: a v2 hosted Mount of a 3-layer stack in which every remote call
succeeds except the final combined-layers request returns that error
and leaves the share registry (pointwise, as a map) and the SCSI table
exactly as they were before the call: each of the two identifiers
touched by this call is released exactly once by the rollback - which
restores every count, removing entries this call created - and the
reserved attachment slot is cleared again. -/
theorem mount_combined_failure_restores_state
    (ntg : String → Option String) (oracle : ModifyReq → Bool)
    (lop : LayerOp → Option String)
    (l1 l2 ls g1 g2 gs : String) (vsmb0 : VsmbMap) (row0 : List String)
    (rest : List (List String))
    (h1 : ntg (fileName l1) = some g1) (h2 : ntg (fileName l2) = some g2)
    (hs : ntg (fileName ls) = some gs)
    (hu : UniqueKeys vsmb0) (hinv : VsmbInv vsmb0)
    (hfree : "" ∈ row0)
    (hOvadd : ∀ n p, oracle (ModifyReq.vsmbAdd n p) = true)
    (hOsadd : ∀ c l hp cp, oracle (ModifyReq.scsiAdd c l hp cp) = true)
    (hOvrem : ∀ n, oracle (ModifyReq.vsmbRemove n) = true)
    (hOsrem : ∀ c l cp, oracle (ModifyReq.scsiRemove c l cp) = true)
    (hOcomb : ∀ r L, oracle (ModifyReq.combinedAdd r L) = false) :
    (∃ e, (Mount ntg oracle lop [l1, l2, ls] SchemaVersion.v20 true vsmb0
      (row0 :: rest)).result = Except.error e) ∧
    (∀ k, vfind (Mount ntg oracle lop [l1, l2, ls] SchemaVersion.v20 true vsmb0
      (row0 :: rest)).vsmb k = vfind vsmb0 k) ∧
    (Mount ntg oracle lop [l1, l2, ls] SchemaVersion.v20 true vsmb0
      (row0 :: rest)).scsi = row0 :: rest := by
  obtain ⟨l0, hl0⟩ :=
    findIdxAux_isSome_of_mem (fun h => h == "") row0 "" hfree rfl
  have hrow : lgetD row0 l0 "" = "" := by
    have := (findIdxAux_some (fun h => h == "") row0 l0 "" hl0).1
    exact eq_of_beq this
  obtain ⟨cs, hloop⟩ := mountVsmbLoop_two ntg oracle l1 l2 g1 g2 vsmb0 h1 h2 hOvadd
  have hdl : [l1, l2, ls].dropLast = [l1, l2] := rfl
  have hlast : [l1, l2, ls].getLastD "" = ls := rfl
  have halloc : allocateSCSI (row0 :: rest) (joinPath ls "sandbox.vhdx") =
      some (0, l0, setSlot (row0 :: rest) 0 l0 (joinPath ls "sandbox.vhdx")) := by
    simp [allocateSCSI, scanFree, hl0]
  have hres : (Mount ntg oracle lop [l1, l2, ls] SchemaVersion.v20 true vsmb0
      (row0 :: rest)).result = Except.error "failed to modify combined layers" := by
    simp [Mount, SchemaVersion.IsV10, SchemaVersion.IsV20, hdl, hlast, hloop, hs,
      halloc, hOsadd, hOcomb]
  have hvsmb : (Mount ntg oracle lop [l1, l2, ls] SchemaVersion.v20 true vsmb0
      (row0 :: rest)).vsmb =
      (removeVSMBOnFailure oracle (acqState (acqState vsmb0 g1) g2) [g1, g2]).1 := by
    simp [Mount, SchemaVersion.IsV10, SchemaVersion.IsV20, hdl, hlast, hloop, hs,
      halloc, hOsadd, hOcomb]
  have hscsi : (Mount ntg oracle lop [l1, l2, ls] SchemaVersion.v20 true vsmb0
      (row0 :: rest)).scsi =
      (removeSCSIOnFailure oracle
        (setSlot (row0 :: rest) 0 l0 (joinPath ls "sandbox.vhdx")) 0 l0).1 := by
    simp [Mount, SchemaVersion.IsV10, SchemaVersion.IsV20, hdl, hlast, hloop, hs,
      halloc, hOsadd, hOcomb]
  refine ⟨⟨"failed to modify combined layers", hres⟩, ?_, ?_⟩
  · intro k
    rw [hvsmb]
    exact rollback_two_restores oracle vsmb0 g1 g2 hu hinv k
  · rw [hscsi]
    have e1 : setSlot (row0 :: rest) 0 l0 (joinPath ls "sandbox.vhdx") =
        (lsetL row0 l0 (joinPath ls "sandbox.vhdx")) :: rest := rfl
    rw [e1]
    have e2 : (removeSCSIOnFailure oracle
        ((lsetL row0 l0 (joinPath ls "sandbox.vhdx")) :: rest) 0 l0).1 =
        setSlot ((lsetL row0 l0 (joinPath ls "sandbox.vhdx")) :: rest) 0 l0 "" := by
      simp [removeSCSIOnFailure, removeSCSI, hOsrem]
    rw [e2]
    have e3 : setSlot ((lsetL row0 l0 (joinPath ls "sandbox.vhdx")) :: rest) 0 l0 "" =
        (lsetL (lsetL row0 l0 (joinPath ls "sandbox.vhdx")) l0 "") :: rest := rfl
    rw [e3, lsetL_lsetL]
    rw [show ("" : String) = lgetD row0 l0 "" from hrow.symm, lsetL_lgetD_self]

/-- Witness for the C2 theorem at a concrete 3-layer stack, a registry
already holding an unrelated identifier, and the 4 x 64 table. -/
theorem mount_combined_failure_restores_state_witness :
    (ntgOk (fileName "b") = some "g-b") ∧
    (ntgOk (fileName "r") = some "g-r") ∧
    (ntgOk (fileName "s") = some "g-s") ∧
    UniqueKeys [(("q" : String), (3 : Int))] ∧
    VsmbInv [(("q" : String), (3 : Int))] ∧
    ("" ∈ List.replicate 64 "") ∧
    ((∃ e, (Mount ntgOk combinedAddFails lopOk ["b", "r", "s"] SchemaVersion.v20 true
      [("q", 3)] (List.replicate 64 "" :: List.replicate 3 (List.replicate 64 ""))).result =
        Except.error e) ∧
    (∀ k, vfind (Mount ntgOk combinedAddFails lopOk ["b", "r", "s"] SchemaVersion.v20 true
      [("q", 3)] (List.replicate 64 "" :: List.replicate 3 (List.replicate 64 ""))).vsmb k =
        vfind [("q", 3)] k) ∧
    (Mount ntgOk combinedAddFails lopOk ["b", "r", "s"] SchemaVersion.v20 true
      [("q", 3)] (List.replicate 64 "" :: List.replicate 3 (List.replicate 64 ""))).scsi =
        List.replicate 64 "" :: List.replicate 3 (List.replicate 64 "")) :=
  ⟨rfl, rfl, rfl, by unfold UniqueKeys; decide, by unfold VsmbInv; decide, by decide,
    mount_combined_failure_restores_state ntgOk combinedAddFails lopOk
      "b" "r" "s" "g-b" "g-r" "g-s" [("q", 3)] (List.replicate 64 "")
      (List.replicate 3 (List.replicate 64 "")) rfl rfl rfl
      (by unfold UniqueKeys; decide) (by unfold VsmbInv; decide) (by decide)
      (fun n p => rfl) (fun c l hp cp => rfl) (fun n => rfl) (fun c l cp => rfl)
      (fun r L => rfl)⟩

/-! ### Claim C8, counterexample -/

/-- C8 counterexample: (i) with scope = UnmountOperationVSMB only, a
read-only layer whose identifier is absent from the registry is skipped
with nothing accumulated: the call returns the nil (empty) error even
though a missing identifier occurred - while processing did continue and
removed the other layer; (ii) with scope = UnmountOperationAll, whose
share-release bit is set, the share-release section does not run at
all. -/
theorem unmount_missing_id_not_accumulated :
    ((Unmount ntgOk allTrue lopOk ["a", "b", "s"] SchemaVersion.v20 true
        UnmountOperationVSMB vsmbOnlyB emptyTable).err = [] ∧
      (Unmount ntgOk allTrue lopOk ["a", "b", "s"] SchemaVersion.v20 true
        UnmountOperationVSMB vsmbOnlyB emptyTable).vsmb = [] ∧
      (Unmount ntgOk allTrue lopOk ["a", "b", "s"] SchemaVersion.v20 true
        UnmountOperationVSMB vsmbOnlyB emptyTable).calls = [ModifyReq.vsmbRemove "g-b"]) ∧
    ((Unmount ntgOk allTrue lopOk ["a", "b", "s"] SchemaVersion.v20 true
        UnmountOperationAll vsmbOnlyB emptyTable).err = [] ∧
      (Unmount ntgOk allTrue lopOk ["a", "b", "s"] SchemaVersion.v20 true
        UnmountOperationAll vsmbOnlyB emptyTable).vsmb = vsmbOnlyB ∧
      (Unmount ntgOk allTrue lopOk ["a", "b", "s"] SchemaVersion.v20 true
        UnmountOperationAll vsmbOnlyB emptyTable).calls = []) :=
  ⟨⟨rfl, rfl, rfl⟩, ⟨rfl, rfl, rfl⟩⟩

/-! ### Claim C8, amended theorem -/

theorem unmountVsmbSection_spec (ntg : String → Option String)
    (oracle : ModifyReq → Bool) :
    ∀ (layers : List String) (s : VsmbMap) (e0 : List String) (c0 : List ModifyReq),
      UniqueKeys s →
      (layers.filterMap (fun l => ntg (fileName l))).Nodup →
      (unmountVsmbSection ntg oracle ⟨s, e0, c0⟩ layers).errs =
        e0 ++ layers.filterMap (unmountErrContribution ntg oracle s) ∧
      (unmountVsmbSection ntg oracle ⟨s, e0, c0⟩ layers).calls =
        c0 ++ layers.filterMap (unmountCallContribution ntg s) ∧
      UniqueKeys (unmountVsmbSection ntg oracle ⟨s, e0, c0⟩ layers).vsmb ∧
      (∀ k, k ∉ layers.filterMap (fun l => ntg (fileName l)) →
        vfind (unmountVsmbSection ntg oracle ⟨s, e0, c0⟩ layers).vsmb k = vfind s k) ∧
      (∀ l2 ∈ layers, ∀ g, ntg (fileName l2) = some g →
        vfind (unmountVsmbSection ntg oracle ⟨s, e0, c0⟩ layers).vsmb g =
          unmountPostCount s g) := by
  intro layers
  induction layers with
  | nil =>
      intro s e0 c0 hu hnd
      refine ⟨by simp [unmountVsmbSection], by simp [unmountVsmbSection], hu, ?_, ?_⟩
      · intro k _; rfl
      · intro l2 hl2; simp at hl2
  | cons l rest ih =>
      intro s e0 c0 hu hnd
      have hsec : ∀ acc, unmountVsmbSection ntg oracle acc (l :: rest) =
          unmountVsmbSection ntg oracle (unmountVsmbStep ntg oracle acc l) rest :=
        fun acc => rfl
      cases hg : ntg (fileName l) with
      | none =>
          have hstep : unmountVsmbStep ntg oracle ⟨s, e0, c0⟩ l = ⟨s, e0, c0⟩ := by
            simp [unmountVsmbStep, hg]
          have hnd2 : (rest.filterMap (fun x => ntg (fileName x))).Nodup := by
            simpa [List.filterMap_cons, hg] using hnd
          obtain ⟨ihE, ihC, ihU, ihF, ihP⟩ := ih s e0 c0 hu hnd2
          rw [hsec, hstep]
          refine ⟨?_, ?_, ihU, ?_, ?_⟩
          · rw [ihE]
            simp [List.filterMap_cons, unmountErrContribution, hg]
          · rw [ihC]
            simp [List.filterMap_cons, unmountCallContribution, hg]
          · intro k hk
            refine ihF k ?_
            simpa [List.filterMap_cons, hg] using hk
          · intro l2 hl2 g hg2
            rcases List.mem_cons.1 hl2 with h | h
            · rw [h] at hg2
              rw [hg2] at hg
              exact absurd hg (by simp)
            · exact ihP l2 h g hg2
      | some g =>
          have hguids : (l :: rest).filterMap (fun x => ntg (fileName x)) =
              g :: rest.filterMap (fun x => ntg (fileName x)) := by
            simp [List.filterMap_cons, hg]
          have hnotin : g ∉ rest.filterMap (fun x => ntg (fileName x)) := by
            have := hnd
            rw [hguids] at this
            exact (List.nodup_cons.1 this).1
          have hnd2 : (rest.filterMap (fun x => ntg (fileName x))).Nodup := by
            have := hnd
            rw [hguids] at this
            exact (List.nodup_cons.1 this).2
          have hneq : ∀ g2 ∈ rest.filterMap (fun x => ntg (fileName x)), g2 ≠ g :=
            fun g2 hg2 heq => hnotin (heq ▸ hg2)
          cases hv : vfind s g with
          | none =>
              have hstep : unmountVsmbStep ntg oracle ⟨s, e0, c0⟩ l = ⟨s, e0, c0⟩ := by
                simp [unmountVsmbStep, hg, hv]
              obtain ⟨ihE, ihC, ihU, ihF, ihP⟩ := ih s e0 c0 hu hnd2
              rw [hsec, hstep]
              refine ⟨?_, ?_, ihU, ?_, ?_⟩
              · rw [ihE]
                simp [List.filterMap_cons, unmountErrContribution, hg, hv]
              · rw [ihC]
                simp [List.filterMap_cons, unmountCallContribution, hg, hv]
              · intro k hk
                rw [hguids] at hk
                exact ihF k (fun hmem => hk (List.mem_cons_of_mem g hmem))
              · intro l2 hl2 g2 hg2
                rcases List.mem_cons.1 hl2 with h | h
                · rw [h] at hg2
                  rw [hg2] at hg
                  have hgg : g2 = g := by
                    have := hg
                    simpa using this
                  subst hgg
                  rw [ihF g2 hnotin, hv]
                  simp [unmountPostCount, hv]
                · exact ihP l2 h g2 hg2
          | some n =>
              by_cases hpos : n - 1 > 0
              · have hstep : unmountVsmbStep ntg oracle ⟨s, e0, c0⟩ l =
                    ⟨vset s g (n - 1), e0, c0⟩ := by
                  simp [unmountVsmbStep, hg, hv, hpos]
                have hu2 : UniqueKeys (vset s g (n - 1)) := uniqueKeys_vset s g (n - 1) hu
                obtain ⟨ihE, ihC, ihU, ihF, ihP⟩ := ih (vset s g (n - 1)) e0 c0 hu2 hnd2
                have hcongrE : rest.filterMap
                      (unmountErrContribution ntg oracle (vset s g (n - 1))) =
                    rest.filterMap (unmountErrContribution ntg oracle s) := by
                  refine List.filterMap_congr (fun x hx => ?_)
                  cases hgx : ntg (fileName x) with
                  | none => simp [unmountErrContribution, hgx]
                  | some g2 =>
                      have hmem : g2 ∈ rest.filterMap (fun y => ntg (fileName y)) :=
                        List.mem_filterMap.2 ⟨x, hx, hgx⟩
                      have : g2 ≠ g := hneq g2 hmem
                      simp [unmountErrContribution, hgx, vfind_vset_ne s g g2 (n - 1) this]
                have hcongrC : rest.filterMap (unmountCallContribution ntg (vset s g (n - 1))) =
                    rest.filterMap (unmountCallContribution ntg s) := by
                  refine List.filterMap_congr (fun x hx => ?_)
                  cases hgx : ntg (fileName x) with
                  | none => simp [unmountCallContribution, hgx]
                  | some g2 =>
                      have hmem : g2 ∈ rest.filterMap (fun y => ntg (fileName y)) :=
                        List.mem_filterMap.2 ⟨x, hx, hgx⟩
                      have : g2 ≠ g := hneq g2 hmem
                      simp [unmountCallContribution, hgx, vfind_vset_ne s g g2 (n - 1) this]
                rw [hsec, hstep]
                refine ⟨?_, ?_, ihU, ?_, ?_⟩
                · rw [ihE, hcongrE]
                  simp [List.filterMap_cons, unmountErrContribution, hg, hv, hpos]
                · rw [ihC, hcongrC]
                  simp [List.filterMap_cons, unmountCallContribution, hg, hv, hpos]
                · intro k hk
                  rw [hguids] at hk
                  have hkg : k ≠ g := fun heq => hk (heq ▸ List.mem_cons_self g _)
                  rw [ihF k (fun hmem => hk (List.mem_cons_of_mem g hmem))]
                  exact vfind_vset_ne s g k (n - 1) hkg
                · intro l2 hl2 g2 hg2
                  rcases List.mem_cons.1 hl2 with h | h
                  · rw [h] at hg2
                    have hgg : g2 = g := by
                      rw [hg2] at hg
                      simpa using hg
                    subst hgg
                    rw [ihF g2 hnotin, vfind_vset_self s g2 (n - 1)]
                    simp [unmountPostCount, hv, hpos]
                  · rw [ihP l2 h g2 hg2]
                    have hmem : g2 ∈ rest.filterMap (fun y => ntg (fileName y)) :=
                      List.mem_filterMap.2 ⟨l2, h, hg2⟩
                    have hne2 : g2 ≠ g := hneq g2 hmem
                    simp [unmountPostCount, vfind_vset_ne s g g2 (n - 1) hne2]
              · have hu2 : UniqueKeys (verase s g) := uniqueKeys_verase s g hu
                have hcongrE :
                    rest.filterMap (unmountErrContribution ntg oracle (verase s g)) =
                    rest.filterMap (unmountErrContribution ntg oracle s) := by
                  refine List.filterMap_congr (fun x hx => ?_)
                  cases hgx : ntg (fileName x) with
                  | none => simp [unmountErrContribution, hgx]
                  | some g2 =>
                      have hmem : g2 ∈ rest.filterMap (fun y => ntg (fileName y)) :=
                        List.mem_filterMap.2 ⟨x, hx, hgx⟩
                      have : g2 ≠ g := hneq g2 hmem
                      simp [unmountErrContribution, hgx, vfind_verase_ne s g g2 this]
                have hcongrC : rest.filterMap (unmountCallContribution ntg (verase s g)) =
                    rest.filterMap (unmountCallContribution ntg s) := by
                  refine List.filterMap_congr (fun x hx => ?_)
                  cases hgx : ntg (fileName x) with
                  | none => simp [unmountCallContribution, hgx]
                  | some g2 =>
                      have hmem : g2 ∈ rest.filterMap (fun y => ntg (fileName y)) :=
                        List.mem_filterMap.2 ⟨x, hx, hgx⟩
                      have : g2 ≠ g := hneq g2 hmem
                      simp [unmountCallContribution, hgx, vfind_verase_ne s g g2 this]
                have hrestAsm : ∀ e1 c1, UniqueKeys
                      (unmountVsmbSection ntg oracle ⟨verase s g, e1, c1⟩ rest).vsmb ∧
                    (∀ k, k ∉ rest.filterMap (fun x => ntg (fileName x)) →
                      vfind (unmountVsmbSection ntg oracle ⟨verase s g, e1, c1⟩ rest).vsmb k =
                        vfind (verase s g) k) ∧
                    (∀ l2 ∈ rest, ∀ g2, ntg (fileName l2) = some g2 →
                      vfind (unmountVsmbSection ntg oracle ⟨verase s g, e1, c1⟩ rest).vsmb g2 =
                        unmountPostCount (verase s g) g2) := by
                  intro e1 c1
                  obtain ⟨_, _, ihU, ihF, ihP⟩ := ih (verase s g) e1 c1 hu2 hnd2
                  exact ⟨ihU, ihF, ihP⟩
                have hpostRest : ∀ l2 ∈ rest, ∀ g2, ntg (fileName l2) = some g2 →
                    unmountPostCount (verase s g) g2 = unmountPostCount s g2 := by
                  intro l2 h g2 hg2
                  have hmem : g2 ∈ rest.filterMap (fun y => ntg (fileName y)) :=
                    List.mem_filterMap.2 ⟨l2, h, hg2⟩
                  have hne2 : g2 ≠ g := hneq g2 hmem
                  simp [unmountPostCount, vfind_verase_ne s g g2 hne2]
                by_cases ho : oracle (ModifyReq.vsmbRemove g) = true
                · have hstep : unmountVsmbStep ntg oracle ⟨s, e0, c0⟩ l =
                      ⟨verase s g, e0, c0 ++ [ModifyReq.vsmbRemove g]⟩ := by
                    simp [unmountVsmbStep, hg, hv, hpos, ho, verase_vset]
                  obtain ⟨ihE, ihC, _, _, _⟩ :=
                    ih (verase s g) e0 (c0 ++ [ModifyReq.vsmbRemove g]) hu2 hnd2
                  obtain ⟨ihU, ihF, ihP⟩ := hrestAsm e0 (c0 ++ [ModifyReq.vsmbRemove g])
                  rw [hsec, hstep]
                  refine ⟨?_, ?_, ihU, ?_, ?_⟩
                  · rw [ihE, hcongrE]
                    simp [List.filterMap_cons, unmountErrContribution, hg, hv, hpos, ho]
                  · rw [ihC, hcongrC]
                    simp [List.filterMap_cons, unmountCallContribution, hg, hv, hpos]
                  · intro k hk
                    rw [hguids] at hk
                    have hkg : k ≠ g := fun heq => hk (heq ▸ List.mem_cons_self g _)
                    rw [ihF k (fun hmem => hk (List.mem_cons_of_mem g hmem))]
                    exact vfind_verase_ne s g k hkg
                  · intro l2 hl2 g2 hg2
                    rcases List.mem_cons.1 hl2 with h | h
                    · rw [h] at hg2
                      have hgg : g2 = g := by
                        rw [hg2] at hg
                        simpa using hg
                      subst hgg
                      rw [ihF g2 hnotin, vfind_verase_self s g2 hu]
                      simp [unmountPostCount, hv, hpos]
                    · rw [ihP l2 h g2 hg2]
                      exact hpostRest l2 h g2 hg2
                · have ho2 : oracle (ModifyReq.vsmbRemove g) = false :=
                    Bool.not_eq_true _ ▸ eq_false_of_ne_true ho
                  have hstep : unmountVsmbStep ntg oracle ⟨s, e0, c0⟩ l =
                      ⟨verase s g, e0 ++ ["failed to remove vsmb share " ++ l],
                        c0 ++ [ModifyReq.vsmbRemove g]⟩ := by
                    simp [unmountVsmbStep, hg, hv, hpos, ho2, verase_vset]
                  obtain ⟨ihE, ihC, _, _, _⟩ :=
                    ih (verase s g) (e0 ++ ["failed to remove vsmb share " ++ l])
                      (c0 ++ [ModifyReq.vsmbRemove g]) hu2 hnd2
                  obtain ⟨ihU, ihF, ihP⟩ := hrestAsm
                    (e0 ++ ["failed to remove vsmb share " ++ l])
                    (c0 ++ [ModifyReq.vsmbRemove g])
                  rw [hsec, hstep]
                  refine ⟨?_, ?_, ihU, ?_, ?_⟩
                  · rw [ihE, hcongrE]
                    simp [List.filterMap_cons, unmountErrContribution, hg, hv, hpos, ho2]
                  · rw [ihC, hcongrC]
                    simp [List.filterMap_cons, unmountCallContribution, hg, hv, hpos]
                  · intro k hk
                    rw [hguids] at hk
                    have hkg : k ≠ g := fun heq => hk (heq ▸ List.mem_cons_self g _)
                    rw [ihF k (fun hmem => hk (List.mem_cons_of_mem g hmem))]
                    exact vfind_verase_ne s g k hkg
                  · intro l2 hl2 g2 hg2
                    rcases List.mem_cons.1 hl2 with h | h
                    · rw [h] at hg2
                      have hgg : g2 = g := by
                        rw [hg2] at hg
                        simpa using hg
                      subst hgg
                      rw [ihF g2 hnotin, vfind_verase_self s g2 hu]
                      simp [unmountPostCount, hv, hpos]
                    · rw [ihP l2 h g2 hg2]
                      exact hpostRest l2 h g2 hg2


/-- C8 amended: for a v2 hosted unmount whose scope is exactly the
share-release bit (the only non-zero scope for which the guard
(op ||| VSMB) = VSMB enables the section), the orchestrator processes
every read-only layer even after failures: a derivation failure or a
missing identifier is logged and skipped without joining the returned
error, a remote-removal failure is accumulated into the combined
non-fatal error, and in all cases processing continues through all
remaining layers - every present identifier is decremented (removed
when its count reaches 0), with one Remove request per identifier whose
count drops, and one error entry exactly per failed Remove. -/
theorem unmount_vsmb_continues_through_failures
    (ntg : String → Option String) (oracle : ModifyReq → Bool)
    (lop : LayerOp → Option String) (ros : List String) (sb : String)
    (vsmb0 : VsmbMap) (scsi0 : ScsiTable)
    (hros : ros ≠ []) (hu : UniqueKeys vsmb0)
    (hnd : (ros.filterMap (fun l => ntg (fileName l))).Nodup) :
    (Unmount ntg oracle lop (ros ++ [sb]) SchemaVersion.v20 true
      UnmountOperationVSMB vsmb0 scsi0).err =
        ros.filterMap (unmountErrContribution ntg oracle vsmb0) ∧
    (Unmount ntg oracle lop (ros ++ [sb]) SchemaVersion.v20 true
      UnmountOperationVSMB vsmb0 scsi0).calls =
        ros.filterMap (unmountCallContribution ntg vsmb0) ∧
    (∀ l ∈ ros, ∀ g, ntg (fileName l) = some g →
      vfind (Unmount ntg oracle lop (ros ++ [sb]) SchemaVersion.v20 true
        UnmountOperationVSMB vsmb0 scsi0).vsmb g = unmountPostCount vsmb0 g) ∧
    (Unmount ntg oracle lop (ros ++ [sb]) SchemaVersion.v20 true
      UnmountOperationVSMB vsmb0 scsi0).scsi = scsi0 := by
  have hlen1 : 1 ≤ ros.length := List.length_pos.2 hros
  have hlen : ¬ ((ros ++ [sb]).length < 2) := by
    simp only [List.length_append, List.length_cons, List.length_nil]
    omega
  have hdl : (ros ++ [sb]).dropLast = ros := List.dropLast_concat
  have hS : ¬ ((UnmountOperationVSMB ||| UnmountOperationSCSI) = UnmountOperationSCSI) := by
    decide
  have hlen2 : ¬ (ros.length + 1 < 2) := by omega
  have hlen3 : 0 < ros.length := hlen1
  have herr : (Unmount ntg oracle lop (ros ++ [sb]) SchemaVersion.v20 true
      UnmountOperationVSMB vsmb0 scsi0).err =
      (unmountVsmbSection ntg oracle ⟨vsmb0, [], []⟩ ros).errs := by
    simp [Unmount, SchemaVersion.IsV10, SchemaVersion.IsV20, hlen2, hlen3, hdl, hS]
  have hcalls : (Unmount ntg oracle lop (ros ++ [sb]) SchemaVersion.v20 true
      UnmountOperationVSMB vsmb0 scsi0).calls =
      (unmountVsmbSection ntg oracle ⟨vsmb0, [], []⟩ ros).calls := by
    simp [Unmount, SchemaVersion.IsV10, SchemaVersion.IsV20, hlen2, hlen3, hdl, hS]
  have hvs : (Unmount ntg oracle lop (ros ++ [sb]) SchemaVersion.v20 true
      UnmountOperationVSMB vsmb0 scsi0).vsmb =
      (unmountVsmbSection ntg oracle ⟨vsmb0, [], []⟩ ros).vsmb := by
    simp [Unmount, SchemaVersion.IsV10, SchemaVersion.IsV20, hlen2, hlen3, hdl, hS]
  have hsc : (Unmount ntg oracle lop (ros ++ [sb]) SchemaVersion.v20 true
      UnmountOperationVSMB vsmb0 scsi0).scsi = scsi0 := by
    simp [Unmount, SchemaVersion.IsV10, SchemaVersion.IsV20, hlen2, hlen3, hdl, hS]
  obtain ⟨hE, hC, _, _, hP⟩ := unmountVsmbSection_spec ntg oracle ros vsmb0 [] [] hu hnd
  refine ⟨?_, ?_, ?_, hsc⟩
  · rw [herr, hE, List.nil_append]
  · rw [hcalls, hC, List.nil_append]
  · intro l hl g hg
    rw [hvs]
    exact hP l hl g hg

/-- Witness for the amended C8 theorem: three read-only layers, the
first absent from the registry, the second present with count 1 and a
failing remote Remove, the third present with count 2. -/
theorem unmount_vsmb_continues_through_failures_witness :
    (["a", "b", "c"] ≠ ([] : List String)) ∧
    UniqueKeys [(("g-b" : String), (1 : Int)), ("g-c", 2)] ∧
    ((["a", "b", "c"].filterMap (fun l => ntgOk (fileName l))).Nodup) ∧
    ((Unmount ntgOk allFalse lopOk (["a", "b", "c"] ++ ["s"]) SchemaVersion.v20 true
      UnmountOperationVSMB [("g-b", 1), ("g-c", 2)] [[""]]).err =
        ["a", "b", "c"].filterMap
          (unmountErrContribution ntgOk allFalse [("g-b", 1), ("g-c", 2)]) ∧
    (Unmount ntgOk allFalse lopOk (["a", "b", "c"] ++ ["s"]) SchemaVersion.v20 true
      UnmountOperationVSMB [("g-b", 1), ("g-c", 2)] [[""]]).calls =
        ["a", "b", "c"].filterMap
          (unmountCallContribution ntgOk [("g-b", 1), ("g-c", 2)]) ∧
    (∀ l ∈ ["a", "b", "c"], ∀ g, ntgOk (fileName l) = some g →
      vfind (Unmount ntgOk allFalse lopOk (["a", "b", "c"] ++ ["s"]) SchemaVersion.v20 true
        UnmountOperationVSMB [("g-b", 1), ("g-c", 2)] [[""]]).vsmb g =
          unmountPostCount [("g-b", 1), ("g-c", 2)] g) ∧
    (Unmount ntgOk allFalse lopOk (["a", "b", "c"] ++ ["s"]) SchemaVersion.v20 true
      UnmountOperationVSMB [("g-b", 1), ("g-c", 2)] [[""]]).scsi = [[""]]) :=
  ⟨by decide, by unfold UniqueKeys; decide, by decide,
    unmount_vsmb_continues_through_failures ntgOk allFalse lopOk ["a", "b", "c"] "s"
      [("g-b", 1), ("g-c", 2)] [[""]] (by decide) (by unfold UniqueKeys; decide) (by decide)⟩

end Hcs
